import Mathlib

/-!
The package `cm4iofan`: a driver for the EMC2301 fan controller.

A shallow embedding of `cm4iofan.go` and theorems about it.

* The `smbus` package is an external collaborator.  It is a parameter of every
  function here: a record `SMBus σ` of state-passing operations over an arbitrary
  bus state `σ`.  A successful `ReadReg(reg, 1)` yields one byte, and `WriteReg`
  is given the one-byte slice the driver passes.
* Every call made on the bus is recorded in a log, so that theorems can speak
  about which registers were read or written and which connections were closed.
* Go's `error` results are kept next to the value, as in the source: a function
  returning `(T, error)` returns `T × Option Error` here.
* A run-time panic (integer division by zero) is an explicit outcome.
* A finite `float64` is represented by the rational number it denotes, and every
  floating-point operation rounds its exact result to the nearest `float64`,
  ties to even (IEEE 754 binary64).
-/

namespace Cm4iofan

/-! ## Constants (`cm4iofan.go`, lines 10-29) -/

/-- Register containing the product id. -/
def Emc2301ProductIdReg : Nat := 0xFD
/-- The product id of the EMC2301. -/
def Emc2301ProductIdVal : Nat := 0x37
/-- The fan configuration register. -/
def Emc2301ConfigReg : Nat := 0x32
/-- The fan drive setting register. -/
def Emc2301DutyCycleReg : Nat := 0x30
/-- Register containing the high byte of the TACH measurement. -/
def Emc2301TachHighReg : Nat := 0x3E
/-- Register containing the low byte of the TACH measurement. -/
def Emc2301TachLowReg : Nat := 0x3F
/-- RPM conversion constant. -/
def Emc2301Tach2RPM : Nat := 3932160

/-! ## The bus -/

/-- A `uint8`. -/
abbrev Byte := Fin 256

/-- Result of a bus operation: a value, or the error (a code) of the
`smbus` package. -/
inductive Res (α : Type) where
  | ok (v : α)
  | err (code : Nat)
  deriving DecidableEq, Repr

/-- An open connection (`*smbus.Conn`): the serial number it was given when it was
opened, and the arguments of the `smbus.Open` call that produced it. -/
structure Conn where
  id : Nat
  bus : Int
  addr : Nat
  deriving DecidableEq, Repr

/-- The `smbus` package over a bus state `σ`: what each call answers and how it
changes the state.  `Close` returns an error in Go as well, which the driver never
looks at. -/
structure SMBus (σ : Type) where
  Open : Int → Nat → σ → Res Unit × σ
  ReadReg : Conn → Nat → σ → Res Byte × σ
  WriteReg : Conn → Nat → Byte → σ → Res Unit × σ
  Close : Conn → σ → σ

/-- One call made on the bus, with its answer. -/
inductive Event where
  | opened (c : Conn)
  | openFailed (bus : Int) (addr : Nat) (code : Nat)
  | read (c : Conn) (reg : Nat) (res : Res Byte)
  | wrote (c : Conn) (reg : Nat) (data : Byte) (res : Res Unit)
  | closed (c : Conn)
  deriving DecidableEq, Repr

/-- The bus state together with the log of all calls made so far (oldest first). -/
structure World (σ : Type) where
  st : σ
  log : List Event

/-- The errors of the driver. -/
inductive Error where
  /-- The value of `errors.New("device not found")`. -/
  | deviceNotFound
  /-- The value of `errors.New("unexpected product id")`. -/
  | unexpectedProductId
  /-- The value of `errors.New("expecting a value of 0 <= pct <= 100")`. -/
  | pctOutOfRange
  /-- An error returned by the `smbus` package, passed on unchanged. -/
  | smbus (code : Nat)
  deriving DecidableEq, Repr

variable {σ : Type}

/-- The call `smbus.Open(bus, addr)`: the new connection gets the length of the log
as its serial number, so no two connections share one. -/
def smbusOpen (B : SMBus σ) (bus : Int) (addr : Nat) (w : World σ) :
    Res Conn × World σ :=
  match B.Open bus addr w.st with
  | (.ok _, s) =>
    let c : Conn := ⟨w.log.length, bus, addr⟩
    (.ok c, ⟨s, w.log ++ [.opened c]⟩)
  | (.err e, s) => (.err e, ⟨s, w.log ++ [.openFailed bus addr e]⟩)

/-- The call `c.ReadReg(reg, 1)`. -/
def connReadReg (B : SMBus σ) (c : Conn) (reg : Nat) (w : World σ) :
    Res Byte × World σ :=
  match B.ReadReg c reg w.st with
  | (r, s) => (r, ⟨s, w.log ++ [.read c reg r]⟩)

/-- The call `c.WriteReg(reg, []uint8{data})`. -/
def connWriteReg (B : SMBus σ) (c : Conn) (reg : Nat) (data : Byte) (w : World σ) :
    Res Unit × World σ :=
  match B.WriteReg c reg data w.st with
  | (r, s) => (r, ⟨s, w.log ++ [.wrote c reg data r]⟩)

/-- The call `c.Close()`. -/
def connClose (B : SMBus σ) (c : Conn) (w : World σ) : World σ :=
  ⟨B.Close c w.st, w.log ++ [.closed c]⟩

/-! ## `float64` arithmetic -/

/-- Two to the power `e`, for any integer `e`. -/
def pow2 (e : Int) : ℚ :=
  if 0 ≤ e then ((2 ^ e.toNat : Nat) : ℚ) else 1 / ((2 ^ (-e).toNat : Nat) : ℚ)

/-- The number `log2Fuel fuel n` is the floor of the binary logarithm of `n`, for
`n ≤ fuel`. -/
def log2Fuel : Nat → Nat → Nat
  | 0, _ => 0
  | fuel + 1, n => if n < 2 then 0 else log2Fuel fuel (n / 2) + 1

/-- Floor of the binary logarithm (0 for 0). -/
def natLog2 (n : Nat) : Nat := log2Fuel n n

/-- The binary exponent of a nonzero rational: the `e` with `2^e ≤ |q| < 2^(e+1)`. -/
def binExp (q : ℚ) : Int :=
  let e : Int := (natLog2 q.num.natAbs : Int) - (natLog2 q.den : Int)
  if |q| < pow2 e then e - 1 else e

/-- Round to the nearest integer, ties to the even one. -/
def roundHalfEven (x : ℚ) : Int :=
  let f := Rat.floor x
  let r := x - f
  if r < 1 / 2 then f else if 1 / 2 < r then f + 1 else if f % 2 = 0 then f else f + 1

/-- Round a rational to the nearest `float64` (53-bit significand, least normal
exponent -1022, ties to even).  Results beyond the largest finite `float64` are not
modelled: the driver only handles values up to 255. -/
def roundFloat64 (q : ℚ) : ℚ :=
  if q = 0 then 0
  else
    let e := max (binExp q) (-1022)
    let ulp := pow2 (e - 52)
    (roundHalfEven (q / ulp) : ℚ) * ulp

/-- The conversion `float64(n)` of an integer. -/
def float64OfInt (n : Int) : ℚ := roundFloat64 (n : ℚ)

/-- The `float64` quotient `x / y`. -/
def f64div (x y : ℚ) : ℚ := roundFloat64 (x / y)

/-- The `float64` product `x * y`. -/
def f64mul (x y : ℚ) : ℚ := roundFloat64 (x * y)

/-- The function `math.Round`: the nearest integer, rounding half away from zero.
The result is an integer and so a `float64` again. -/
def mathRound (x : ℚ) : ℚ :=
  if x < 0 then -((Rat.floor (-x + 1 / 2) : Int) : ℚ) else ((Rat.floor (x + 1 / 2) : Int) : ℚ)

/-- The conversion `int(x)` of a `float64`: the fraction is discarded. -/
def intOfFloat64 (x : ℚ) : Int :=
  if x < 0 then -(Rat.floor (-x)) else Rat.floor x

/-- The conversion `uint8(x)` of a `float64` (exact for an integer in 0..255,
which is all the driver converts). -/
def uint8OfFloat64 (x : ℚ) : Byte :=
  ⟨(intOfFloat64 x).toNat % 256, Nat.mod_lt _ (by decide)⟩

/-! ## The driver -/

/-- The handle `EMC2301`. -/
structure EMC2301 where
  conn : Conn
  deriving DecidableEq, Repr

/-- Line 98: `int(math.Round((float64(v[0]) / 255) * 100))`. -/
def pctOfReg (v : Byte) : Int :=
  intOfFloat64 (mathRound (f64mul (f64div (float64OfInt (v.val : Int)) 255) 100))

/-- Lines 107-108: `uint8(math.Round(255 * (float64(pct) / 100)))`. -/
def regOfPct (pct : Int) : Byte :=
  uint8OfFloat64 (mathRound (f64mul 255 (f64div (float64OfInt pct) 100)))

/-- `GetDutyCycle` reads and returns the current PWM duty cycle in %. -/
def GetDutyCycle (B : SMBus σ) (ctrl : EMC2301) (w : World σ) :
    (Int × Option Error) × World σ :=
  match connReadReg B ctrl.conn Emc2301DutyCycleReg w with
  | (.err e, w1) => ((-1, some (.smbus e)), w1)
  | (.ok v, w1) => ((pctOfReg v, none), w1)

/-- `SetDutyCycle` sets the PWM duty cycle in %. -/
def SetDutyCycle (B : SMBus σ) (ctrl : EMC2301) (pct : Int) (w : World σ) :
    Option Error × World σ :=
  if pct < 0 ∨ pct > 100 then (some .pctOutOfRange, w)
  else
    match connWriteReg B ctrl.conn Emc2301DutyCycleReg (regOfPct pct) w with
    | (.err e, w1) => (some (.smbus e), w1)
    | (.ok _, w1) => (none, w1)

/-- The result of a RPM measurement. -/
structure RPMResult where
  Rpm : Int := 0
  Stopped : Bool := false
  Undef : Bool := false
  deriving DecidableEq, Repr

/-- How a call ends: it returns, or the Go run time panics. -/
inductive Outcome (α : Type) where
  | ret (a : α)
  /-- The run-time error "integer divide by zero". -/
  | divideByZero
  deriving DecidableEq, Repr

/-- Lines 133-134: `tach := uint16(h[0]) << 5; tach |= uint16(l[0]) >> 3`. -/
def tachOf (h l : Byte) : Nat :=
  ((h.val <<< 5) % 2 ^ 16) ||| (l.val >>> 3)

/-- `GetRPM` measures/calculates the current RPM (if possible). -/
def GetRPM (B : SMBus σ) (ctrl : EMC2301) (w : World σ) :
    Outcome (RPMResult × Option Error) × World σ :=
  match connReadReg B ctrl.conn Emc2301TachHighReg w with
  | (.err e, w1) => (.ret ({}, some (.smbus e)), w1)
  | (.ok h, w1) =>
    match connReadReg B ctrl.conn Emc2301TachLowReg w1 with
    | (.err e, w2) => (.ret ({}, some (.smbus e)), w2)
    | (.ok l, w2) =>
      let tach := tachOf h l
      -- `Emc2301Tach2RPM / uint32(tach)`: a division of `uint32` values
      if tach % 2 ^ 32 = 0 then (.divideByZero, w2)
      else
        let rpm : Int := ((Emc2301Tach2RPM % 2 ^ 32 / (tach % 2 ^ 32) : Nat) : Int)
        if rpm > 500 then (.ret ({ Rpm := rpm }, none), w2)
        else
          match GetDutyCycle B ctrl w2 with
          | ((_, some err), w3) => (.ret ({}, some err), w3)
          | ((dc, none), w3) =>
            if dc = 0 then (.ret ({ Stopped := true }, none), w3)
            else (.ret ({ Undef := true }, none), w3)

/-- The loop of `FindEmc2301Address` over the bus numbers still to be tried. -/
def findLoop (B : SMBus σ) : List Nat → World σ → (Int × Option Error) × World σ
  | [], w => ((-1, some .deviceNotFound), w)
  | bus :: rest, w =>
    match smbusOpen B (bus : Int) 0x00 w with
    | (.ok c, w1) =>
      match connReadReg B c Emc2301ProductIdReg w1 with
      | (r, w2) =>
        let w3 := connClose B c w2
        match r with
        | .ok _ => (((bus : Int), none), w3)
        | .err _ => findLoop B rest w3
    | (.err _, w1) => findLoop B rest w1

/-- `FindEmc2301Address` finds the I2C bus number where the EMC2301 device is
connected.  The loop `for bus := 0; bus <= 10; bus++` never assigns `bus` in its
body, so it tries 0, 1, ..., 10 in this order. -/
def FindEmc2301Address (B : SMBus σ) (w : World σ) : (Int × Option Error) × World σ :=
  findLoop B (List.range 11) w

/-- Line 65: `conf[0] &= ^(uint8(0b11) << 5)`. -/
def clearRange (conf : Byte) : Byte :=
  ⟨conf.val &&& (((0b11 <<< 5) % 2 ^ 8) ^^^ 0xFF), lt_of_le_of_lt Nat.and_le_left conf.isLt⟩

/-- `New` opens the connection to the EMC2301, verifies the product id, performs the
initial configuration and returns the handle. -/
def New (B : SMBus σ) (w : World σ) : (Option EMC2301 × Option Error) × World σ :=
  match FindEmc2301Address B w with
  | ((_, some err), w1) => ((none, some err), w1)
  | ((addr, none), w1) =>
    match smbusOpen B addr Emc2301ProductIdReg w1 with
    | (.err e, w2) => ((none, some (.smbus e)), w2)
    | (.ok c, w2) =>
      match connReadReg B c Emc2301ProductIdReg w2 with
      | (.err e, w3) => ((none, some (.smbus e)), connClose B c w3)
      | (.ok id, w3) =>
        if Emc2301ProductIdVal ≠ id.val then
          ((none, some .unexpectedProductId), connClose B c w3)
        else
          match connReadReg B c Emc2301ConfigReg w3 with
          | (.err e, w4) => ((none, some (.smbus e)), connClose B c w4)
          | (.ok conf, w4) =>
            match connWriteReg B c Emc2301ConfigReg (clearRange conf) w4 with
            | (.err e, w5) => ((none, some (.smbus e)), connClose B c w5)
            | (.ok _, w5) => ((some ⟨c⟩, none), w5)

/-! ## Buses used in examples -/

/-- A bus without state: bus `b` answers `opens b` to `Open`, register `reg` on bus
`b` reads `regs b reg`, and every write answers `wr`. -/
def staticBus (opens : Int → Res Unit) (regs : Int → Nat → Res Byte) (wr : Res Unit) :
    SMBus Unit where
  Open b _ s := (opens b, s)
  ReadReg c reg s := (regs c.bus reg, s)
  WriteReg _ _ _ s := (wr, s)
  Close _ s := s

/-- A handle on bus 1, as `New` would return it. -/
def ctrl1 : EMC2301 := ⟨⟨0, 1, Emc2301ProductIdReg⟩⟩

/-- The world in which nothing has happened yet. -/
def world0 : World Unit := ⟨(), []⟩

/-- Registers of a device whose tachometer reads `h`, `l` and whose drive setting
reads `d`; every other register reads 0. -/
def fanRegs (h l d : Byte) : Int → Nat → Res Byte :=
  fun _ reg =>
    if reg = Emc2301TachHighReg then .ok h
    else if reg = Emc2301TachLowReg then .ok l
    else if reg = Emc2301DutyCycleReg then .ok d
    else .ok 0

/-- A device as a register file: the state gives the content of each register,
a read answers that content and a write replaces it; every call succeeds. -/
def regFileBus : SMBus (Nat → Byte) where
  Open _ _ s := (.ok (), s)
  ReadReg _ reg s := (.ok (s reg), s)
  WriteReg _ reg d s := (.ok (), Function.update s reg d)
  Close _ s := s

/-! ## The words of the specification -/

/-- Round to the nearest integer, ties away from zero, on exact rationals. -/
def roundHalfAwayFromZero (x : ℚ) : Int :=
  if 0 ≤ x then Rat.floor (x + 1 / 2) else -Rat.floor (-x + 1 / 2)

/-- The register byte of a percentage as the specification words it:
`round(255 * pct / 100)`, in exact arithmetic. -/
def specRegOfPct (pct : Int) : Int := roundHalfAwayFromZero (255 * (pct : ℚ) / 100)

/-- The percentage of a register byte as the specification words it:
`round(value / 255 * 100)`, in exact arithmetic. -/
def specPctOfReg (v : Nat) : Int := roundHalfAwayFromZero ((v : ℚ) / 255 * 100)

/-- The duty-cycle register behind connection `c` returns the last byte written to
it: in every state the write succeeds, and the read that follows the write of `d`
answers `d`. -/
def ReturnsLastWritten (B : SMBus σ) (c : Conn) : Prop :=
  ∀ (d : Byte) (s : σ),
    (B.WriteReg c Emc2301DutyCycleReg d s).1 = .ok () ∧
    (B.ReadReg c Emc2301DutyCycleReg (B.WriteReg c Emc2301DutyCycleReg d s).2).1 = .ok d

/-- The bus number an event is about. -/
def Event.bus : Event → Int
  | .opened c => c.bus
  | .openFailed b _ _ => b
  | .read c _ _ => c.bus
  | .wrote c _ _ _ => c.bus
  | .closed c => c.bus

/-- The probe of one bus number as the specification describes it: open a tentative
connection (at address 0x00), on success read one byte of the identity register 0xFD
and close the connection whatever the read answered.  The probe succeeds when both
the open and the read succeed. -/
def probe (B : SMBus σ) (bus : Nat) (w : World σ) : Bool × World σ :=
  match smbusOpen B (bus : Int) 0x00 w with
  | (.err _, w1) => (false, w1)
  | (.ok c, w1) =>
    match connReadReg B c 0xFD w1 with
    | (.ok _, w2) => (true, connClose B c w2)
    | (.err _, w2) => (false, connClose B c w2)

/-- The world in which bus `n` is probed when the scan starts in `w` and no bus
below `n` has stopped it: the buses 0, ..., `n - 1` have been probed in this order. -/
def worldBefore (B : SMBus σ) (w : World σ) : Nat → World σ
  | 0 => w
  | n + 1 => (probe B n (worldBefore B w n)).2

/-- Bus `bus` answers a probe made in world `w`: `smbus.Open(bus, 0x00)` succeeds
and the read of one byte of the identity register 0xFD on the new connection
succeeds (with whatever byte). -/
def Answers (B : SMBus σ) (bus : Nat) (w : World σ) : Prop :=
  (B.Open (bus : Int) 0x00 w.st).1 = .ok () ∧
  ∃ v, (B.ReadReg ⟨w.log.length, (bus : Int), 0x00⟩ 0xFD
          (B.Open (bus : Int) 0x00 w.st).2).1 = .ok v

/-- The probe of bus `bus` made in world `w` reads the byte `v`: `smbus.Open(bus,
0x00)` succeeds and the read of one byte of the identity register 0xFD on the new
connection answers `v`. -/
def ProbeReads (B : SMBus σ) (bus : Nat) (w : World σ) (v : Byte) : Prop :=
  (B.Open (bus : Int) 0x00 w.st).1 = .ok () ∧
  (B.ReadReg ⟨w.log.length, (bus : Int), 0x00⟩ 0xFD
    (B.Open (bus : Int) 0x00 w.st).2).1 = .ok v

/-- The probe of bus `bus` made in world `w` fails: `smbus.Open(bus, 0x00)` fails, or
it succeeds and the read of the identity register 0xFD on the new connection
fails. -/
def ProbeFails (B : SMBus σ) (bus : Nat) (w : World σ) : Prop :=
  (∃ e, (B.Open (bus : Int) 0x00 w.st).1 = .err e) ∨
  ((B.Open (bus : Int) 0x00 w.st).1 = .ok () ∧
    ∃ e, (B.ReadReg ⟨w.log.length, (bus : Int), 0x00⟩ 0xFD
      (B.Open (bus : Int) 0x00 w.st).2).1 = .err e)

/-- Bus `i` opens, in every state and at every address. -/
def Opens (B : SMBus σ) (i : Int) : Prop :=
  ∀ a s, (B.Open i a s).1 = .ok ()

/-- Opening bus `i` fails, in every state and at every address. -/
def OpenFails (B : SMBus σ) (i : Int) : Prop :=
  ∀ a s, ∃ e, (B.Open i a s).1 = .err e

/-- The identity register 0xFD of bus `i` reads `v`, in every state. -/
def IdentityReads (B : SMBus σ) (i : Int) (v : Byte) : Prop :=
  ∀ c : Conn, c.bus = i → ∀ s, (B.ReadReg c 0xFD s).1 = .ok v

/-- The read of the identity register 0xFD of bus `i` fails, in every state. -/
def IdentityReadFails (B : SMBus σ) (i : Int) : Prop :=
  ∀ c : Conn, c.bus = i → ∀ s, ∃ e, (B.ReadReg c 0xFD s).1 = .err e

/-- Bus `i` fails: the open fails or the read of the identity register fails. -/
def Fails (B : SMBus σ) (i : Int) : Prop :=
  OpenFails B i ∨ IdentityReadFails B i

/-- Bus `i` mismatches: it opens and the read of its identity register succeeds with
a byte other than 0x37. -/
def Mismatches (B : SMBus σ) (i : Int) : Prop :=
  Opens B i ∧ ∃ v : Byte, v.val ≠ 0x37 ∧ IdentityReads B i v

/-- Bus `i` never returns the byte `v` from its identity register 0xFD. -/
def NeverReads (B : SMBus σ) (i : Int) (v : Byte) : Prop :=
  ∀ c : Conn, c.bus = i → ∀ s, (B.ReadReg c 0xFD s).1 ≠ .ok v

/-- A bus on which number 3 holds the EMC2301 (identity 0x37), number 0 holds another
device (identity 0x00), and no other number opens. -/
def mismatchBus : SMBus Unit :=
  staticBus (fun b => if b = 0 ∨ b = 3 then .ok () else .err 2)
    (fun b _ => if b = 3 then .ok 0x37 else .ok 0x00) (.ok ())

/-- A bus on which every number opens and every register reads 0: no number returns
the identity 0x37. -/
def wrongIdBus : SMBus Unit :=
  staticBus (fun _ => .ok ()) (fun _ _ => .ok 0x00) (.ok ())

/-- A bus on which only number 3 opens, holding the EMC2301. -/
def onlyBus3 : SMBus Unit :=
  staticBus (fun b => if b = 3 then .ok () else .err 2) (fun _ _ => .ok 0x37) (.ok ())

/-- A bus on which no number opens. -/
def deadBus : SMBus Unit :=
  staticBus (fun _ => .err 2) (fun _ _ => .err 5) (.err 6)

/-- A bus with a state, the number of `Open` calls made so far: the first `Open`
fails whatever the bus number, the later ones succeed on the numbers 0 and 3 only;
number 3 holds the EMC2301 (identity 0x37) and number 0 another device (identity
0x00).  Number 0 fails when it is probed first and would open afterwards. -/
def flakyBus : SMBus Nat where
  Open b _ s := (if s = 0 then .err 1 else if b = 0 ∨ b = 3 then .ok () else .err 2, s + 1)
  ReadReg c _ s := (if c.bus = 3 then .ok 0x37 else .ok 0x00, s)
  WriteReg _ _ _ s := (.ok (), s)
  Close _ s := s

/-- A bus that opens at address 0x00 only, the address of the probes: every other
open fails with code 9.  Every register reads 0x00. -/
def probeOnlyBus : SMBus Unit where
  Open _ a s := (if a = 0x00 then .ok () else .err 9, s)
  ReadReg _ _ s := (.ok 0x00, s)
  WriteReg _ _ _ s := (.ok (), s)
  Close _ s := s

/-- A bus on which every number opens and every read fails with code 5, except that
the first read of each connection opened at address 0x00 answers 0x00: the probes
succeed and the identity read on the real connection fails. -/
def readFailBus : SMBus Unit where
  Open _ _ s := (.ok (), s)
  ReadReg c _ s := (if c.addr = 0x00 then .ok 0x00 else .err 5, s)
  WriteReg _ _ _ s := (.ok (), s)
  Close _ s := s

/-! ## Reading the log -/

/-- The connection an event is about (a failed open has none). -/
def Event.conn : Event → Option Conn
  | .opened c => some c
  | .openFailed _ _ _ => none
  | .read c _ _ => some c
  | .wrote c _ _ _ => some c
  | .closed c => some c

/-- The register an event reads or writes. -/
def Event.reg : Event → Option Nat
  | .read _ reg _ => some reg
  | .wrote _ reg _ _ => some reg
  | _ => none

/-- Whether the event is a successful open. -/
def Event.isOpened : Event → Bool
  | .opened _ => true
  | _ => false

/-- Whether the event is a close. -/
def Event.isClosed : Event → Bool
  | .closed _ => true
  | _ => false

/-- Whether the event is a register write. -/
def Event.isWrote : Event → Bool
  | .wrote _ _ _ _ => true
  | _ => false

/-- The close counter of connection `c`: the number of `Close` calls on it among the
events. -/
def closeCount (c : Conn) (es : List Event) : Nat := es.count (.closed c)

/-- The number of connections open after the events `es`, when none was open before:
the opens minus the closes. -/
def openConns (es : List Event) : Int :=
  (es.countP Event.isOpened : Int) - (es.countP Event.isClosed : Int)

/-- The events of a scan that starts when the log has `base` entries: probe after
probe, each either a failed open, or an open, one read of the identity register and
the close of the connection just opened. -/
inductive ProbeTrace (base : Nat) : List Event → Prop where
  | nil : ProbeTrace base []
  | failed (es : List Event) (bus : Int) (code : Nat) :
      ProbeTrace base es → ProbeTrace base (es ++ [.openFailed bus 0x00 code])
  | probed (es : List Event) (bus : Int) (r : Res Byte) :
      ProbeTrace base es →
      ProbeTrace base (es ++
        [.opened ⟨base + es.length, bus, 0x00⟩,
         .read ⟨base + es.length, bus, 0x00⟩ Emc2301ProductIdReg r,
         .closed ⟨base + es.length, bus, 0x00⟩])

/-- A bus on which every number opens and every register reads 0x37, and on which
every write fails with code 6: the identity matches and the configuration write
fails. -/
def writeFailBus : SMBus Unit :=
  staticBus (fun _ => .ok ()) (fun _ _ => .ok 0x37) (.err 6)

/-- A bus on which bus number 1 holds an EMC2301 whose configuration register reads
0xFF; no other number opens. -/
def goodBus : SMBus Unit :=
  staticBus (fun b => if b = 1 then .ok () else .err 2)
    (fun _ reg => if reg = Emc2301ProductIdReg then .ok 0x37 else .ok 0xFF) (.ok ())

/-! ## Theorems -/

/-! ### The `float64` model on known values -/

/-- With enough fuel, `log2Fuel` is the binary logarithm of the library. -/
theorem log2Fuel_eq (fuel : Nat) : ∀ n, n ≤ fuel → log2Fuel fuel n = Nat.log2 n := by
  induction fuel with
  | zero =>
    intro n hn
    have h0 : n = 0 := by omega
    subst h0
    simp [log2Fuel, Nat.log2]
  | succ k ih =>
    intro n hn
    rw [log2Fuel, Nat.log2]
    by_cases h2 : n < 2
    · have h2b : ¬ n ≥ 2 := by omega
      simp [h2, h2b]
    · have h2b : n ≥ 2 := by omega
      rw [if_neg h2, if_pos h2b, ih (n / 2) (by omega)]

/-- The logarithm used by the rounding is the binary logarithm of the library. -/
theorem natLog2_eq (n : Nat) : natLog2 n = Nat.log2 n := log2Fuel_eq n n le_rfl

/-- The `float64` nearest to one tenth is `0x1.999999999999ap-4`. -/
theorem roundFloat64_tenth :
    roundFloat64 (1 / 10) = 3602879701896397 / 36028797018963968 := by decide!

/-- The product `255 * 0.1` is exactly 25.5 in `float64`. -/
theorem f64mul_255_tenth : f64mul 255 (f64div 10 100) = 51 / 2 := by decide!

/-- Integers up to 255 are `float64` values. -/
theorem float64OfInt_byte : ∀ v : Fin 256, float64OfInt (v.val : Int) = (v.val : ℚ) := by
  set_option maxRecDepth 100000 in decide!

/-! ### Duty cycle arithmetic -/

/-- The `float64` computation of `SetDutyCycle` agrees on 0..100 with the formula of
the specification in exact arithmetic. -/
theorem regOfPct_float : ∀ p : Fin 101,
    intOfFloat64 (mathRound (f64mul 255 (f64div (float64OfInt (p.val : Int)) 100))) =
      specRegOfPct (p.val : Int) := by
  set_option maxRecDepth 100000 in decide!

/-- The formula `round(255 * pct / 100)` stays in 0..255 on 0..100. -/
theorem specRegOfPct_range : ∀ p : Fin 101,
    0 ≤ specRegOfPct (p.val : Int) ∧ specRegOfPct (p.val : Int) ≤ 255 := by
  set_option maxRecDepth 100000 in decide!

/-- The `float64` computation of `GetDutyCycle` agrees on every byte with the formula
of the specification in exact arithmetic. -/
theorem pctOfReg_float : ∀ v : Byte, pctOfReg v = specPctOfReg v.val := by
  set_option maxRecDepth 100000 in decide!

/-- The formula `round(value / 255 * 100)` stays in 0..100 on bytes. -/
theorem specPctOfReg_range : ∀ v : Byte,
    0 ≤ specPctOfReg v.val ∧ specPctOfReg v.val ≤ 100 := by
  set_option maxRecDepth 100000 in decide!

/-- In exact arithmetic, percent to byte to percent is the identity on 0..100. -/
theorem specPctOfReg_specRegOfPct : ∀ p : Fin 101,
    specPctOfReg (specRegOfPct (p.val : Int)).toNat = (p.val : Int) := by
  set_option maxRecDepth 100000 in decide!

/-- The byte computed by `SetDutyCycle` for 0..100: the conversion to `uint8` is
exact, and the byte is the one of the specification. -/
theorem regOfPct_spec : ∀ p : Fin 101,
    intOfFloat64 (mathRound (f64mul 255 (f64div (float64OfInt (p.val : Int)) 100))) =
      specRegOfPct (p.val : Int) ∧
    ((regOfPct (p.val : Int)).val : Int) = specRegOfPct (p.val : Int) := by
  intro p
  have hf := regOfPct_float p
  have hr := specRegOfPct_range p
  have hv : (regOfPct (p.val : Int)).val =
      (intOfFloat64 (mathRound (f64mul 255 (f64div (float64OfInt (p.val : Int)) 100)))).toNat
        % 256 := rfl
  refine ⟨hf, ?_⟩
  rw [hv, hf]
  omega

/-- The percentage computed by `GetDutyCycle` is the one of the specification and
lies in 0..100. -/
theorem pctOfReg_spec : ∀ v : Byte,
    pctOfReg v = specPctOfReg v.val ∧ 0 ≤ pctOfReg v ∧ pctOfReg v ≤ 100 := by
  intro v
  rw [pctOfReg_float v]
  exact ⟨rfl, specPctOfReg_range v⟩

/-- Percent to byte to percent is the identity on 0..100. -/
theorem pctOfReg_regOfPct : ∀ p : Fin 101, pctOfReg (regOfPct (p.val : Int)) = (p.val : Int) := by
  intro p
  have hv := (regOfPct_spec p).2
  have hr := specRegOfPct_range p
  have hn : (regOfPct (p.val : Int)).val = (specRegOfPct (p.val : Int)).toNat := by omega
  rw [pctOfReg_float, hn, specPctOfReg_specRegOfPct p]

/-- An integer in 0..100 is the value of a `Fin 101`. -/
theorem exists_fin_of_pct (pct : Int) (h0 : 0 ≤ pct) (h1 : pct ≤ 100) :
    ∃ p : Fin 101, ((p.val : Nat) : Int) = pct :=
  ⟨⟨pct.toNat, by omega⟩, by simp [Int.toNat_of_nonneg h0]⟩

/-! ### `GetRPM` -/

/-- The shift of the high byte never leaves 16 bits: the tach count is
`(high << 5) | (low >> 3)` on the natural numbers. -/
theorem tachOf_eq (h l : Byte) : tachOf h l = (h.val <<< 5) ||| (l.val >>> 3) := by
  have hh : h.val <<< 5 < 2 ^ 16 := by
    have := h.isLt
    rw [Nat.shiftLeft_eq]
    omega
  unfold tachOf
  rw [Nat.mod_eq_of_lt hh]

/-- The tach count fits in 13 bits. -/
theorem tachOf_lt (h l : Byte) : tachOf h l < 8192 := by
  rw [tachOf_eq]
  have h1 : h.val <<< 5 < 2 ^ 13 := by
    have := h.isLt
    rw [Nat.shiftLeft_eq]
    omega
  have h2 : l.val >>> 3 < 2 ^ 13 := by
    have := l.isLt
    rw [Nat.shiftRight_eq_div_pow]
    omega
  exact Nat.or_lt_two_pow h1 h2

/-- The world after the two tach reads of `GetRPM` have answered `h` and `l`. -/
theorem GetRPM_of_reads (B : SMBus σ) (ctrl : EMC2301) (w : World σ) (h l : Byte)
    (s1 s2 : σ)
    (hh : B.ReadReg ctrl.conn Emc2301TachHighReg w.st = (.ok h, s1))
    (hl : B.ReadReg ctrl.conn Emc2301TachLowReg s1 = (.ok l, s2)) :
    GetRPM B ctrl w =
      (let w2 : World σ := ⟨s2, w.log ++ [.read ctrl.conn Emc2301TachHighReg (.ok h),
                                          .read ctrl.conn Emc2301TachLowReg (.ok l)]⟩
       if tachOf h l = 0 then (.divideByZero, w2)
       else if 500 < 3932160 / tachOf h l then
         (.ret ({ Rpm := ((3932160 / tachOf h l : Nat) : Int) }, none), w2)
       else
         match GetDutyCycle B ctrl w2 with
         | ((_, some err), w3) => (.ret ({}, some err), w3)
         | ((dc, none), w3) =>
           if dc = 0 then (.ret ({ Stopped := true }, none), w3)
           else (.ret ({ Undef := true }, none), w3)) := by
  have hlt : tachOf h l % 2 ^ 32 = tachOf h l :=
    Nat.mod_eq_of_lt (lt_trans (tachOf_lt h l) (by decide))
  have hc : Emc2301Tach2RPM % 2 ^ 32 = 3932160 := by decide
  have hcast : ((((3932160 / tachOf h l : Nat) : Int) > 500) ↔ 500 < 3932160 / tachOf h l) := by
    constructor
    · intro hgt; exact_mod_cast hgt
    · intro hgt; exact_mod_cast hgt
  simp only [GetRPM, connReadReg, hh, hl, hlt, hc, hcast, List.append_assoc, List.singleton_append]

/-- C1: when both tach reads succeed with bytes `h` and `l`, the count
`tach = (h << 5) | (l >> 3)` is not zero and `3932160 / tach > 500`, then `GetRPM`
returns without error the result with `Rpm = 3932160 / tach`, `Stopped = false` and
`Undef = false`; it has made exactly the two tach reads. -/
theorem GetRPM_measured (B : SMBus σ) (ctrl : EMC2301) (w : World σ) (h l : Byte)
    (s1 s2 : σ)
    (hh : B.ReadReg ctrl.conn Emc2301TachHighReg w.st = (.ok h, s1))
    (hl : B.ReadReg ctrl.conn Emc2301TachLowReg s1 = (.ok l, s2))
    (hz : (h.val <<< 5) ||| (l.val >>> 3) ≠ 0)
    (hr : 3932160 / ((h.val <<< 5) ||| (l.val >>> 3)) > 500) :
    GetRPM B ctrl w =
      (.ret ({ Rpm := ((3932160 / ((h.val <<< 5) ||| (l.val >>> 3)) : Nat) : Int),
               Stopped := false, Undef := false }, none),
       ⟨s2, w.log ++ [.read ctrl.conn Emc2301TachHighReg (.ok h),
                      .read ctrl.conn Emc2301TachLowReg (.ok l)]⟩) := by
  rw [← tachOf_eq] at hz hr ⊢
  rw [GetRPM_of_reads B ctrl w h l s1 s2 hh hl]
  simp only [if_neg hz, if_pos hr]

/-- C1, at the bytes of the spec: `high = 0x01`, `low = 0x00` give `tach = 32` and
the measured result 122880. -/
theorem GetRPM_measured_witness :
    ((1 : Byte).val <<< 5) ||| ((0 : Byte).val >>> 3) = 32 ∧
    GetRPM (staticBus (fun _ => .ok ()) (fanRegs 1 0 0) (.ok ())) ctrl1 world0 =
      (.ret ({ Rpm := 122880, Stopped := false, Undef := false }, none),
       ⟨(), [.read ctrl1.conn Emc2301TachHighReg (.ok 1),
             .read ctrl1.conn Emc2301TachLowReg (.ok 0)]⟩) :=
  ⟨by decide,
   GetRPM_measured (staticBus (fun _ => .ok ()) (fanRegs 1 0 0) (.ok ())) ctrl1 world0 1 0
     () () rfl rfl (by decide) (by decide)⟩

/-- What `GetDutyCycle` returns when the read of the drive setting answers `v`. -/
theorem GetDutyCycle_of_read (B : SMBus σ) (ctrl : EMC2301) (w : World σ) (v : Byte) (s1 : σ)
    (hd : B.ReadReg ctrl.conn Emc2301DutyCycleReg w.st = (.ok v, s1)) :
    GetDutyCycle B ctrl w =
      ((pctOfReg v, none), ⟨s1, w.log ++ [.read ctrl.conn Emc2301DutyCycleReg (.ok v)]⟩) := by
  simp only [GetDutyCycle, connReadReg, hd]

/-- What `GetDutyCycle` returns when the read of the drive setting fails. -/
theorem GetDutyCycle_of_read_err (B : SMBus σ) (ctrl : EMC2301) (w : World σ) (e : Nat)
    (s1 : σ) (hd : B.ReadReg ctrl.conn Emc2301DutyCycleReg w.st = (.err e, s1)) :
    GetDutyCycle B ctrl w =
      ((-1, some (.smbus e)),
       ⟨s1, w.log ++ [.read ctrl.conn Emc2301DutyCycleReg (.err e)]⟩) := by
  simp only [GetDutyCycle, connReadReg, hd]

/-- C2: when both tach reads succeed, the tach count is not zero, the candidate RPM
`3932160 / tach` is at most 500 and the drive setting register is readable, then
`GetDutyCycle`, called after the two tach reads, succeeds; `GetRPM` returns Stopped
(`Stopped = true`, `Undef = false`) when the percentage it yields is 0, and Undefined
(`Undef = true`, `Stopped = false`) when it is not 0. -/
theorem GetRPM_stopped_or_undef (B : SMBus σ) (ctrl : EMC2301) (w : World σ) (h l v : Byte)
    (s1 s2 s3 : σ)
    (hh : B.ReadReg ctrl.conn Emc2301TachHighReg w.st = (.ok h, s1))
    (hl : B.ReadReg ctrl.conn Emc2301TachLowReg s1 = (.ok l, s2))
    (hd : B.ReadReg ctrl.conn Emc2301DutyCycleReg s2 = (.ok v, s3))
    (hz : (h.val <<< 5) ||| (l.val >>> 3) ≠ 0)
    (hr : 3932160 / ((h.val <<< 5) ||| (l.val >>> 3)) ≤ 500) :
    ∃ dc : Int,
      (GetDutyCycle B ctrl
        ⟨s2, w.log ++ [.read ctrl.conn Emc2301TachHighReg (.ok h),
                       .read ctrl.conn Emc2301TachLowReg (.ok l)]⟩).1 = (dc, none) ∧
      (dc = 0 → (GetRPM B ctrl w).1 =
        .ret ({ Rpm := 0, Stopped := true, Undef := false }, none)) ∧
      (dc ≠ 0 → (GetRPM B ctrl w).1 =
        .ret ({ Rpm := 0, Stopped := false, Undef := true }, none)) := by
  rw [← tachOf_eq] at hz hr
  have hr2 : ¬ 500 < 3932160 / tachOf h l := by omega
  have hg := GetDutyCycle_of_read B ctrl
    ⟨s2, w.log ++ [.read ctrl.conn Emc2301TachHighReg (.ok h),
                   .read ctrl.conn Emc2301TachLowReg (.ok l)]⟩ v s3 hd
  refine ⟨pctOfReg v, by rw [hg], ?_, ?_⟩
  · intro h0
    rw [GetRPM_of_reads B ctrl w h l s1 s2 hh hl]
    simp only [if_neg hz, if_neg hr2, hg, if_pos h0]
  · intro h0
    rw [GetRPM_of_reads B ctrl w h l s1 s2 hh hl]
    simp only [if_neg hz, if_neg hr2, hg, if_neg h0]

/-- The drive setting bytes 0 and 51 are 0 % and 20 %. -/
theorem pctOfReg_examples : pctOfReg 0 = 0 ∧ pctOfReg 51 = 20 := by decide!

/-- C2, at tach bytes 0xFF, 0xF8 (count 8191, candidate RPM 480): with the drive
setting byte 0 the duty cycle is 0 and the result is Stopped; with the byte 51 the
duty cycle is 20 and the result is Undefined. -/
theorem GetRPM_stopped_or_undef_witness :
    3932160 / (((0xFF : Byte).val <<< 5) ||| ((0xF8 : Byte).val >>> 3)) = 480 ∧
    (GetRPM (staticBus (fun _ => .ok ()) (fanRegs 0xFF 0xF8 0) (.ok ())) ctrl1 world0).1 =
      .ret ({ Rpm := 0, Stopped := true, Undef := false }, none) ∧
    (GetRPM (staticBus (fun _ => .ok ()) (fanRegs 0xFF 0xF8 51) (.ok ())) ctrl1 world0).1 =
      .ret ({ Rpm := 0, Stopped := false, Undef := true }, none) := by
  refine ⟨by decide, ?_, ?_⟩
  · obtain ⟨dc, hdc, h0, _⟩ :=
      GetRPM_stopped_or_undef (staticBus (fun _ => .ok ()) (fanRegs 0xFF 0xF8 0) (.ok ()))
        ctrl1 world0 0xFF 0xF8 0 () () () rfl rfl rfl (by decide) (by decide)
    rw [GetDutyCycle_of_read _ _ _ 0 () rfl] at hdc
    exact h0 (by rw [← (Prod.mk.inj hdc).1]; exact pctOfReg_examples.1)
  · obtain ⟨dc, hdc, _, h1⟩ :=
      GetRPM_stopped_or_undef (staticBus (fun _ => .ok ()) (fanRegs 0xFF 0xF8 51) (.ok ()))
        ctrl1 world0 0xFF 0xF8 51 () () () rfl rfl rfl (by decide) (by decide)
    rw [GetDutyCycle_of_read _ _ _ 51 () rfl] at hdc
    exact h1 (by rw [← (Prod.mk.inj hdc).1, pctOfReg_examples.2]; decide)

/-- With the high tach byte 0 and the low tach byte below 8 the tach count is 0, and
`GetRPM` ends in the division by zero. -/
theorem GetRPM_divideByZero (B : SMBus σ) (ctrl : EMC2301) (w : World σ) (h l : Byte)
    (s1 s2 : σ)
    (hh : B.ReadReg ctrl.conn Emc2301TachHighReg w.st = (.ok h, s1))
    (hl : B.ReadReg ctrl.conn Emc2301TachLowReg s1 = (.ok l, s2))
    (h0 : h.val = 0) (l8 : l.val < 8) :
    (GetRPM B ctrl w).1 = .divideByZero := by
  have hz : tachOf h l = 0 := by
    rw [tachOf_eq, h0, Nat.shiftRight_eq_div_pow]
    have hl0 : l.val / 2 ^ 3 = 0 := by omega
    rw [hl0]
    rfl
  rw [GetRPM_of_reads B ctrl w h l s1 s2 hh hl]
  simp only [if_pos hz]

/-- C3: with both tach registers reading 0 the tach count is 0 and `GetRPM` does not
return: the division `3932160 / tach` faults, after exactly the two tach reads. -/
theorem GetRPM_zero_tach_faults :
    tachOf 0 0 = 0 ∧
    GetRPM (staticBus (fun _ => .ok ()) (fanRegs 0 0 0) (.ok ())) ctrl1 world0 =
      (.divideByZero,
       ⟨(), [.read ctrl1.conn Emc2301TachHighReg (.ok 0),
             .read ctrl1.conn Emc2301TachLowReg (.ok 0)]⟩) := by
  refine ⟨by decide, ?_⟩
  rw [GetRPM_of_reads _ ctrl1 world0 0 0 () () rfl rfl]
  rfl

/-! ### `SetDutyCycle` and `GetDutyCycle` -/

/-- What `SetDutyCycle` does for a percentage in 0..100: one write of `regOfPct pct`
to the drive setting register, whose answer decides the result. -/
theorem SetDutyCycle_of_range (B : SMBus σ) (ctrl : EMC2301) (pct : Int) (w : World σ)
    (h0 : 0 ≤ pct) (h1 : pct ≤ 100) :
    SetDutyCycle B ctrl pct w =
      ((match (B.WriteReg ctrl.conn Emc2301DutyCycleReg (regOfPct pct) w.st).1 with
        | .err e => some (.smbus e)
        | .ok _ => none),
       ⟨(B.WriteReg ctrl.conn Emc2301DutyCycleReg (regOfPct pct) w.st).2,
        w.log ++ [.wrote ctrl.conn Emc2301DutyCycleReg (regOfPct pct)
          (B.WriteReg ctrl.conn Emc2301DutyCycleReg (regOfPct pct) w.st).1]⟩) := by
  have hr : ¬ (pct < 0 ∨ pct > 100) := by omega
  unfold SetDutyCycle connWriteReg
  rw [if_neg hr]
  rcases hw : B.WriteReg ctrl.conn Emc2301DutyCycleReg (regOfPct pct) w.st with ⟨r, s⟩
  cases r <;> rfl

/-- C4: on a bus whose drive setting register returns the last byte written to it,
for every `pct` in 0..100 `SetDutyCycle(pct)` succeeds and the `GetDutyCycle()` that
follows succeeds with a value `v` such that `|v - pct| ≤ 1`. -/
theorem set_get_within_one (B : SMBus σ) (ctrl : EMC2301) (pct : Int) (w : World σ)
    (hB : ReturnsLastWritten B ctrl.conn) (h0 : 0 ≤ pct) (h1 : pct ≤ 100) :
    (SetDutyCycle B ctrl pct w).1 = none ∧
    ∃ v : Int, (GetDutyCycle B ctrl (SetDutyCycle B ctrl pct w).2).1 = (v, none) ∧
      |v - pct| ≤ 1 := by
  obtain ⟨hw, hr⟩ := hB (regOfPct pct) w.st
  rw [SetDutyCycle_of_range B ctrl pct w h0 h1]
  refine ⟨by simp only [hw], pctOfReg (regOfPct pct), ?_, ?_⟩
  · rw [GetDutyCycle_of_read B ctrl _ (regOfPct pct)
      (B.ReadReg ctrl.conn Emc2301DutyCycleReg
        (B.WriteReg ctrl.conn Emc2301DutyCycleReg (regOfPct pct) w.st).2).2
      (Prod.ext hr rfl)]
  · obtain ⟨p, hp⟩ := exists_fin_of_pct pct h0 h1
    rw [← hp, pctOfReg_regOfPct p]
    simp

/-- The register file returns the last byte written to any of its registers. -/
theorem regFileBus_returnsLastWritten (c : Conn) : ReturnsLastWritten regFileBus c := by
  intro d s
  simp [regFileBus]

/-- C4, on the register file with `pct = 20`. -/
theorem set_get_within_one_witness :
    (SetDutyCycle regFileBus ctrl1 20 ⟨fun _ => 0, []⟩).1 = none ∧
    ∃ v : Int,
      (GetDutyCycle regFileBus ctrl1
        (SetDutyCycle regFileBus ctrl1 20 ⟨fun _ => 0, []⟩).2).1 = (v, none) ∧
      |v - 20| ≤ 1 :=
  set_get_within_one regFileBus ctrl1 20 ⟨fun _ => 0, []⟩
    (regFileBus_returnsLastWritten ctrl1.conn) (by decide) (by decide)

/-- C5: for `pct < 0` or `pct > 100` `SetDutyCycle` fails with the invalid-argument
error and leaves the bus state and the log of bus calls as they were (no write);
for `pct` in 0..100 its error is never the invalid-argument error: when it fails, it
is with the error of the failed register write. -/
theorem SetDutyCycle_invalid_argument (B : SMBus σ) (ctrl : EMC2301) (pct : Int)
    (w : World σ) :
    ((pct < 0 ∨ 100 < pct) → SetDutyCycle B ctrl pct w = (some .pctOutOfRange, w)) ∧
    ((0 ≤ pct ∧ pct ≤ 100) →
      (SetDutyCycle B ctrl pct w).1 ≠ some .pctOutOfRange ∧
      ∀ err, (SetDutyCycle B ctrl pct w).1 = some err →
        ∃ e, err = .smbus e ∧
          (B.WriteReg ctrl.conn Emc2301DutyCycleReg (regOfPct pct) w.st).1 = .err e) := by
  constructor
  · intro h
    have hr : pct < 0 ∨ pct > 100 := h
    unfold SetDutyCycle
    rw [if_pos hr]
  · rintro ⟨h0, h1⟩
    rw [SetDutyCycle_of_range B ctrl pct w h0 h1]
    rcases hw : (B.WriteReg ctrl.conn Emc2301DutyCycleReg (regOfPct pct) w.st).1 with _ | e
    · simp
    · simp

/-- C5, at `pct = -1` and `pct = 101` on a bus where every write would succeed, and
at `pct = 50` on a bus where every write fails with code 7. -/
theorem SetDutyCycle_invalid_argument_witness :
    SetDutyCycle (staticBus (fun _ => .ok ()) (fanRegs 0 0 0) (.ok ())) ctrl1 (-1) world0 =
      (some .pctOutOfRange, world0) ∧
    SetDutyCycle (staticBus (fun _ => .ok ()) (fanRegs 0 0 0) (.ok ())) ctrl1 101 world0 =
      (some .pctOutOfRange, world0) ∧
    (SetDutyCycle (staticBus (fun _ => .ok ()) (fanRegs 0 0 0) (.err 7)) ctrl1 50 world0).1 ≠
      some .pctOutOfRange :=
  ⟨(SetDutyCycle_invalid_argument _ ctrl1 (-1) world0).1 (Or.inl (by decide)),
   (SetDutyCycle_invalid_argument _ ctrl1 101 world0).1 (Or.inr (by decide)),
   ((SetDutyCycle_invalid_argument _ ctrl1 50 world0).2 ⟨by decide, by decide⟩).1⟩

/-- C7: when the read of the drive setting register 0x30 answers the byte `v`,
`GetDutyCycle` returns without error `round(v / 255 * 100)`, half away from zero
(the specification's formula in exact arithmetic), a percentage in 0..100, 0 for
`v = 0` and 100 for `v = 255`, after that one read; when the read fails it returns
the error of the read (and -1). -/
theorem GetDutyCycle_rounded (B : SMBus σ) (ctrl : EMC2301) (w : World σ) :
    (∀ (v : Byte) (s1 : σ), B.ReadReg ctrl.conn 0x30 w.st = (.ok v, s1) →
      GetDutyCycle B ctrl w =
        ((specPctOfReg v.val, none), ⟨s1, w.log ++ [.read ctrl.conn 0x30 (.ok v)]⟩) ∧
      0 ≤ specPctOfReg v.val ∧ specPctOfReg v.val ≤ 100 ∧
      (v.val = 0 → specPctOfReg v.val = 0) ∧ (v.val = 255 → specPctOfReg v.val = 100)) ∧
    (∀ (e : Nat) (s1 : σ), B.ReadReg ctrl.conn 0x30 w.st = (.err e, s1) →
      GetDutyCycle B ctrl w =
        ((-1, some (.smbus e)), ⟨s1, w.log ++ [.read ctrl.conn 0x30 (.err e)]⟩)) := by
  constructor
  · intro v s1 hd
    have hs := pctOfReg_spec v
    rw [GetDutyCycle_of_read B ctrl w v s1 hd, hs.1]
    rw [hs.1] at hs
    refine ⟨rfl, hs.2.1, hs.2.2, ?_, ?_⟩
    · intro hv
      rw [hv]
      decide!
    · intro hv
      rw [hv]
      decide!
  · intro e s1 hd
    rw [GetDutyCycle_of_read_err B ctrl w e s1 hd]
    rfl

/-- C7, on a device whose drive setting reads 255, and on a bus whose reads fail
with code 5. -/
theorem GetDutyCycle_rounded_witness :
    (GetDutyCycle (staticBus (fun _ => .ok ()) (fanRegs 0 0 255) (.ok ())) ctrl1 world0 =
        ((specPctOfReg 255, none), ⟨(), [] ++ [.read ctrl1.conn 0x30 (.ok 255)]⟩) ∧
      specPctOfReg 255 = 100) ∧
    GetDutyCycle (staticBus (fun _ => .ok ()) (fun _ _ => .err 5) (.ok ())) ctrl1 world0 =
      ((-1, some (.smbus 5)), ⟨(), [] ++ [.read ctrl1.conn 0x30 (.err 5)]⟩) :=
  ⟨⟨((GetDutyCycle_rounded (staticBus (fun _ => .ok ()) (fanRegs 0 0 255) (.ok ())) ctrl1
        world0).1 255 () rfl).1,
    ((GetDutyCycle_rounded (staticBus (fun _ => .ok ()) (fanRegs 0 0 255) (.ok ())) ctrl1
        world0).1 255 () rfl).2.2.2.2 rfl⟩,
   (GetDutyCycle_rounded (staticBus (fun _ => .ok ()) (fun _ _ => .err 5) (.ok ())) ctrl1
      world0).2 5 () rfl⟩

/-! ### Calls on the bus -/

/-- The answer of `ReadReg` is the answer of the bus. -/
theorem connReadReg_fst (B : SMBus σ) (c : Conn) (reg : Nat) (w : World σ) :
    (connReadReg B c reg w).1 = (B.ReadReg c reg w.st).1 := rfl

/-- A connection is on the bus number it was opened with. -/
theorem smbusOpen_bus (B : SMBus σ) (bus : Int) (addr : Nat) (w : World σ) (c : Conn)
    (w1 : World σ) (h : smbusOpen B bus addr w = (.ok c, w1)) : c.bus = bus := by
  unfold smbusOpen at h
  rcases ho : B.Open bus addr w.st with ⟨ro, s⟩
  rw [ho] at h
  cases ro with
  | err e => simp at h
  | ok u =>
    simp only [Prod.mk.injEq, Res.ok.injEq] at h
    rw [← h.1]

/-! ### `FindEmc2301Address` -/

/-- One turn of the loop of `FindEmc2301Address` is one probe. -/
theorem findLoop_cons (B : SMBus σ) (bus : Nat) (rest : List Nat) (w : World σ) :
    findLoop B (bus :: rest) w =
      if (probe B bus w).1 = true then (((bus : Int), none), (probe B bus w).2)
      else findLoop B rest (probe B bus w).2 := by
  rw [findLoop]
  unfold probe Emc2301ProductIdReg
  rcases h1 : smbusOpen B (bus : Int) 0x00 w with ⟨ro, w1⟩
  cases ro with
  | err e => simp
  | ok c =>
    rcases h2 : connReadReg B c 0xFD w1 with ⟨rr, w2⟩
    cases rr with
    | err e => simp [h2]
    | ok v => simp [h2]

/-- A probe succeeds exactly on a bus that answers. -/
theorem probe_true_iff (B : SMBus σ) (bus : Nat) (w : World σ) :
    (probe B bus w).1 = true ↔ Answers B bus w := by
  unfold probe Answers smbusOpen connReadReg
  rcases ho : B.Open (bus : Int) 0x00 w.st with ⟨ro, s1⟩
  cases ro with
  | err e => simp
  | ok u =>
    rcases hr : B.ReadReg ⟨w.log.length, (bus : Int), 0x00⟩ 0xFD s1 with ⟨rr, s2⟩
    cases rr with
    | err e => simp [hr]
    | ok v => simp [hr]

/-- Every call of a probe of bus `bus` is about that bus. -/
theorem probe_log (B : SMBus σ) (bus : Nat) (w : World σ) :
    ∃ es, (probe B bus w).2.log = w.log ++ es ∧ ∀ e ∈ es, e.bus = (bus : Int) := by
  unfold probe smbusOpen connReadReg connClose
  rcases B.Open (bus : Int) 0x00 w.st with ⟨ro, s1⟩
  cases ro with
  | err e => exact ⟨[.openFailed bus 0x00 e], rfl, by simp [Event.bus]⟩
  | ok u =>
    rcases hr : B.ReadReg ⟨w.log.length, (bus : Int), 0x00⟩ 0xFD s1 with ⟨rr, s2⟩
    cases rr with
    | err e =>
      exact ⟨[.opened ⟨w.log.length, bus, 0x00⟩,
        .read ⟨w.log.length, bus, 0x00⟩ 0xFD (.err e),
        .closed ⟨w.log.length, bus, 0x00⟩], by simp [hr], by simp [Event.bus]⟩
    | ok v =>
      exact ⟨[.opened ⟨w.log.length, bus, 0x00⟩,
        .read ⟨w.log.length, bus, 0x00⟩ 0xFD (.ok v),
        .closed ⟨w.log.length, bus, 0x00⟩], by simp [hr], by simp [Event.bus]⟩

/-- Before bus `n` is probed, only buses below `n` have been called. -/
theorem worldBefore_log (B : SMBus σ) (w : World σ) (n : Nat) :
    ∃ es, (worldBefore B w n).log = w.log ++ es ∧
      ∀ e ∈ es, 0 ≤ e.bus ∧ e.bus < (n : Int) := by
  induction n with
  | zero => exact ⟨[], by simp [worldBefore], by simp⟩
  | succ k ih =>
    obtain ⟨es, hes, hb⟩ := ih
    obtain ⟨es2, hes2, hb2⟩ := probe_log B k (worldBefore B w k)
    refine ⟨es ++ es2, ?_, ?_⟩
    · simp only [worldBefore]
      rw [hes2, hes, List.append_assoc]
    · intro e he
      rcases List.mem_append.mp he with h | h
      · have := hb e h
        omega
      · have := hb2 e h
        omega

/-- The loop over the bus numbers `k, ..., k + n - 1`, started in the world in which
bus `k` is due: it stops at the first bus whose probe succeeds, and reports that no
device was found when every probe fails. -/
theorem findLoop_range (B : SMBus σ) (w : World σ) (n : Nat) : ∀ k : Nat,
    (∀ b : Nat, k ≤ b → b < k + n → (probe B b (worldBefore B w b)).1 = true →
      (∀ i : Nat, k ≤ i → i < b → (probe B i (worldBefore B w i)).1 = false) →
      findLoop B (List.range' k n) (worldBefore B w k) =
        (((b : Int), none), worldBefore B w (b + 1))) ∧
    ((∀ i : Nat, k ≤ i → i < k + n → (probe B i (worldBefore B w i)).1 = false) →
      findLoop B (List.range' k n) (worldBefore B w k) =
        ((-1, some .deviceNotFound), worldBefore B w (k + n))) := by
  induction n with
  | zero =>
    intro k
    refine ⟨fun b h1 h2 => absurd h2 (by omega), fun _ => ?_⟩
    simp [findLoop]
  | succ m ih =>
    intro k
    obtain ⟨ih1, ih2⟩ := ih (k + 1)
    have hcons : List.range' k (m + 1) = k :: List.range' (k + 1) m := by
      simp [List.range'_succ]
    rw [hcons, findLoop_cons]
    constructor
    · intro b h1 h2 hb hlow
      by_cases hk : b = k
      · subst hk
        rw [if_pos hb]
        rfl
      · have hkf := hlow k le_rfl (by omega)
        rw [if_neg (by simp [hkf])]
        exact ih1 b (by omega) (by omega) hb (fun i hi1 hi2 => hlow i (by omega) hi2)
    · intro hall
      have hkf := hall k le_rfl (by omega)
      rw [if_neg (by simp [hkf])]
      have hrest := ih2 (fun i hi1 hi2 => hall i (by omega) (by omega))
      have hkm : k + 1 + m = k + (m + 1) := by omega
      rw [hkm] at hrest
      exact hrest

/-- The two ways `FindEmc2301Address` ends: at the least bus number in 0..10 that
answers, after the probes of the buses up to it, or with "device not found" after
eleven probes without an answer. -/
theorem FindEmc2301Address_cases (B : SMBus σ) (w : World σ) :
    (∃ b : Nat, b ≤ 10 ∧ Answers B b (worldBefore B w b) ∧
      (∀ i : Nat, i < b → ¬ Answers B i (worldBefore B w i)) ∧
      FindEmc2301Address B w = (((b : Int), none), worldBefore B w (b + 1))) ∨
    ((∀ i : Nat, i ≤ 10 → ¬ Answers B i (worldBefore B w i)) ∧
      FindEmc2301Address B w = ((-1, some .deviceNotFound), worldBefore B w 11)) := by
  classical
  have hrange : FindEmc2301Address B w = findLoop B (List.range' 0 11) (worldBefore B w 0) := by
    unfold FindEmc2301Address
    rw [List.range_eq_range']
    rfl
  obtain ⟨h1, h2⟩ := findLoop_range B w 11 0
  by_cases hex : ∃ i : Nat, i ≤ 10 ∧ Answers B i (worldBefore B w i)
  · left
    refine ⟨Nat.find hex, (Nat.find_spec hex).1, (Nat.find_spec hex).2, ?_, ?_⟩
    · intro i hi ha
      exact Nat.find_min hex hi ⟨by have := (Nat.find_spec hex).1; omega, ha⟩
    · rw [hrange]
      apply h1 (Nat.find hex) (Nat.zero_le _) (by have := (Nat.find_spec hex).1; omega)
        ((probe_true_iff B _ _).mpr (Nat.find_spec hex).2)
      intro i _ hi
      have hna : ¬ Answers B i (worldBefore B w i) := fun ha =>
        Nat.find_min hex hi ⟨by have := (Nat.find_spec hex).1; omega, ha⟩
      rw [← probe_true_iff] at hna
      simpa using hna
  · right
    have hall : ∀ i : Nat, i ≤ 10 → ¬ Answers B i (worldBefore B w i) :=
      fun i hi ha => hex ⟨i, hi, ha⟩
    refine ⟨hall, ?_⟩
    rw [hrange]
    apply h2
    intro i _ hi
    have hna := hall i (by omega)
    rw [← probe_true_iff] at hna
    simpa using hna

/-- On a bus without state a bus number answers when it opens and its identity
register reads something. -/
theorem staticBus_answers (opens : Int → Res Unit) (regs : Int → Nat → Res Byte)
    (wr : Res Unit) (b : Nat) (w : World Unit) (v : Byte)
    (ho : opens (b : Int) = .ok ()) (hr : regs (b : Int) 0xFD = .ok v) :
    Answers (staticBus opens regs wr) b w :=
  ⟨ho, v, hr⟩

/-- C8 fails as stated: on `mismatchBus` number 3 opens and reads the identity 0x37,
every other number in 0..10 fails or mismatches, and `FindEmc2301Address` returns 0,
the mismatching bus, not 3. -/
theorem FindEmc2301Address_returns_mismatch :
    (Opens mismatchBus 3 ∧ IdentityReads mismatchBus 3 0x37) ∧
    (∀ i : Nat, i ≤ 10 → i ≠ 3 → Fails mismatchBus (i : Int) ∨ Mismatches mismatchBus (i : Int)) ∧
    (FindEmc2301Address mismatchBus world0).1 = (0, none) ∧
    (FindEmc2301Address mismatchBus world0).1 ≠ (3, none) := by
  refine ⟨⟨fun a s => rfl, fun c hc s => by simp [mismatchBus, staticBus, hc]⟩, ?_, by decide,
    by decide⟩
  intro i _ h3
  by_cases h0 : i = 0
  · right
    subst h0
    refine ⟨fun a s => rfl, 0x00, by decide, fun c hc s => ?_⟩
    simp [mismatchBus, staticBus, hc]
  · left
    left
    intro a s
    refine ⟨2, ?_⟩
    have hi0 : ¬ ((i : Int) = 0 ∨ (i : Int) = 3) := by omega
    show (if (i : Int) = 0 ∨ (i : Int) = 3 then Res.ok () else Res.err 2) = Res.err 2
    exact if_neg hi0

/-! ### `New` -/

/-- C10 fails as stated: on `wrongIdBus` no bus number in 0..10 returns the identity
0x37, and `New` fails with "unexpected product id", not with "device not found":
bus 0 answers the probe, and the identity is only compared on the real connection. -/
theorem New_fails_with_mismatch :
    (∀ i : Nat, i ≤ 10 → NeverReads wrongIdBus (i : Int) 0x37) ∧
    (FindEmc2301Address wrongIdBus world0).1 = (0, none) ∧
    (New wrongIdBus world0).1 = (none, some .unexpectedProductId) ∧
    (New wrongIdBus world0).1 ≠ (none, some .deviceNotFound) := by
  refine ⟨fun i _ c _ s => ?_, by decide, by decide, by decide⟩
  simp [wrongIdBus, staticBus]

/-! ### `GetRPM`: every way it ends -/

/-- The tach count as a number: `32 * high + low / 8`. -/
theorem tachOf_val (h l : Byte) : tachOf h l = 32 * h.val + l.val / 8 := by
  have hl : l.val / 8 < 2 ^ 5 := by
    have := l.isLt
    omega
  have hor := Nat.mul_add_lt_is_or hl h.val
  have h8 : l.val / 2 ^ 3 = l.val / 8 := rfl
  have h32 : h.val <<< 5 = 2 ^ 5 * h.val := by
    rw [Nat.shiftLeft_eq, Nat.mul_comm]
  rw [tachOf_eq, Nat.shiftRight_eq_div_pow, h8, h32, ← hor]

/-- When the read of the high tach byte fails, `GetRPM` returns that error. -/
theorem GetRPM_high_err (B : SMBus σ) (ctrl : EMC2301) (w : World σ) (e : Nat) (s1 : σ)
    (hh : B.ReadReg ctrl.conn Emc2301TachHighReg w.st = (.err e, s1)) :
    GetRPM B ctrl w =
      (.ret ({ Rpm := 0, Stopped := false, Undef := false }, some (.smbus e)),
       ⟨s1, w.log ++ [.read ctrl.conn Emc2301TachHighReg (.err e)]⟩) := by
  simp only [GetRPM, connReadReg, hh]

/-- When the read of the low tach byte fails, `GetRPM` returns that error. -/
theorem GetRPM_low_err (B : SMBus σ) (ctrl : EMC2301) (w : World σ) (h : Byte) (e : Nat)
    (s1 s2 : σ)
    (hh : B.ReadReg ctrl.conn Emc2301TachHighReg w.st = (.ok h, s1))
    (hl : B.ReadReg ctrl.conn Emc2301TachLowReg s1 = (.err e, s2)) :
    GetRPM B ctrl w =
      (.ret ({ Rpm := 0, Stopped := false, Undef := false }, some (.smbus e)),
       ⟨s2, w.log ++ [.read ctrl.conn Emc2301TachHighReg (.ok h),
                      .read ctrl.conn Emc2301TachLowReg (.err e)]⟩) := by
  simp only [GetRPM, connReadReg, hh, hl, List.append_assoc, List.singleton_append]

/-- With a tach count that is not zero and a candidate RPM of at most 500, `GetRPM`
reads the drive setting: the byte `v` gives Stopped when `pctOfReg v = 0` and
Undefined otherwise. -/
theorem GetRPM_slow (B : SMBus σ) (ctrl : EMC2301) (w : World σ) (h l v : Byte)
    (s1 s2 s3 : σ)
    (hh : B.ReadReg ctrl.conn Emc2301TachHighReg w.st = (.ok h, s1))
    (hl : B.ReadReg ctrl.conn Emc2301TachLowReg s1 = (.ok l, s2))
    (hd : B.ReadReg ctrl.conn Emc2301DutyCycleReg s2 = (.ok v, s3))
    (hz : tachOf h l ≠ 0) (hr : ¬ 500 < 3932160 / tachOf h l) :
    GetRPM B ctrl w =
      (if pctOfReg v = 0 then .ret ({ Rpm := 0, Stopped := true, Undef := false }, none)
       else .ret ({ Rpm := 0, Stopped := false, Undef := true }, none),
       ⟨s3, w.log ++ [.read ctrl.conn Emc2301TachHighReg (.ok h),
                      .read ctrl.conn Emc2301TachLowReg (.ok l),
                      .read ctrl.conn Emc2301DutyCycleReg (.ok v)]⟩) := by
  have hg := GetDutyCycle_of_read B ctrl
    ⟨s2, w.log ++ [.read ctrl.conn Emc2301TachHighReg (.ok h),
                   .read ctrl.conn Emc2301TachLowReg (.ok l)]⟩ v s3 hd
  rw [GetRPM_of_reads B ctrl w h l s1 s2 hh hl]
  simp only [if_neg hz, if_neg hr, hg, List.append_assoc, List.cons_append, List.nil_append]
  by_cases h0 : pctOfReg v = 0
  · simp only [if_pos h0]
  · simp only [if_neg h0]

/-- With a tach count that is not zero and a candidate RPM of at most 500, a failed
read of the drive setting is the error of `GetRPM`. -/
theorem GetRPM_slow_err (B : SMBus σ) (ctrl : EMC2301) (w : World σ) (h l : Byte) (e : Nat)
    (s1 s2 s3 : σ)
    (hh : B.ReadReg ctrl.conn Emc2301TachHighReg w.st = (.ok h, s1))
    (hl : B.ReadReg ctrl.conn Emc2301TachLowReg s1 = (.ok l, s2))
    (hd : B.ReadReg ctrl.conn Emc2301DutyCycleReg s2 = (.err e, s3))
    (hz : tachOf h l ≠ 0) (hr : ¬ 500 < 3932160 / tachOf h l) :
    GetRPM B ctrl w =
      (.ret ({ Rpm := 0, Stopped := false, Undef := false }, some (.smbus e)),
       ⟨s3, w.log ++ [.read ctrl.conn Emc2301TachHighReg (.ok h),
                      .read ctrl.conn Emc2301TachLowReg (.ok l),
                      .read ctrl.conn Emc2301DutyCycleReg (.err e)]⟩) := by
  have hg := GetDutyCycle_of_read_err B ctrl
    ⟨s2, w.log ++ [.read ctrl.conn Emc2301TachHighReg (.ok h),
                   .read ctrl.conn Emc2301TachLowReg (.ok l)]⟩ e s3 hd
  rw [GetRPM_of_reads B ctrl w h l s1 s2 hh hl]
  simp only [if_neg hz, if_neg hr, hg, List.append_assoc, List.cons_append, List.nil_append]

/-- With a tach count that is not zero and a candidate RPM above 500, `GetRPM`
returns the candidate after the two tach reads. -/
theorem GetRPM_fast (B : SMBus σ) (ctrl : EMC2301) (w : World σ) (h l : Byte)
    (s1 s2 : σ)
    (hh : B.ReadReg ctrl.conn Emc2301TachHighReg w.st = (.ok h, s1))
    (hl : B.ReadReg ctrl.conn Emc2301TachLowReg s1 = (.ok l, s2))
    (hz : tachOf h l ≠ 0) (hr : 500 < 3932160 / tachOf h l) :
    GetRPM B ctrl w =
      (.ret ({ Rpm := ((3932160 / tachOf h l : Nat) : Int), Stopped := false,
               Undef := false }, none),
       ⟨s2, w.log ++ [.read ctrl.conn Emc2301TachHighReg (.ok h),
                      .read ctrl.conn Emc2301TachLowReg (.ok l)]⟩) := by
  rw [GetRPM_of_reads B ctrl w h l s1 s2 hh hl]
  simp only [if_neg hz, if_pos hr]

/-- With a tach count of zero, `GetRPM` ends in the division by zero. -/
theorem GetRPM_zero (B : SMBus σ) (ctrl : EMC2301) (w : World σ) (h l : Byte)
    (s1 s2 : σ)
    (hh : B.ReadReg ctrl.conn Emc2301TachHighReg w.st = (.ok h, s1))
    (hl : B.ReadReg ctrl.conn Emc2301TachLowReg s1 = (.ok l, s2))
    (hz : tachOf h l = 0) :
    (GetRPM B ctrl w).1 = .divideByZero := by
  rw [GetRPM_of_reads B ctrl w h l s1 s2 hh hl]
  simp only [if_pos hz]

/-- The candidate RPM exceeds 500 exactly for the tach counts up to 7848. -/
theorem candidate_gt_500_iff (t : Nat) (ht : 0 < t) : 500 < 3932160 / t ↔ t ≤ 7848 := by
  rw [Nat.lt_iff_add_one_le, Nat.le_div_iff_mul_le ht]
  omega

/-- The results `GetRPM` can return without error: a candidate RPM above 500 with
both flags false, Stopped with `Rpm = 0`, or Undefined with `Rpm = 0`. -/
theorem GetRPM_ok_cases (B : SMBus σ) (ctrl : EMC2301) (w : World σ) (r : RPMResult)
    (hok : (GetRPM B ctrl w).1 = .ret (r, none)) :
    (∃ t : Nat, 500 < 3932160 / t ∧
      r = { Rpm := ((3932160 / t : Nat) : Int), Stopped := false, Undef := false }) ∨
    r = { Rpm := 0, Stopped := true, Undef := false } ∨
    r = { Rpm := 0, Stopped := false, Undef := true } := by
  rcases hh : B.ReadReg ctrl.conn Emc2301TachHighReg w.st with ⟨rh, s1⟩
  cases rh with
  | err e =>
    rw [GetRPM_high_err B ctrl w e s1 hh] at hok
    simp at hok
  | ok h =>
    rcases hl : B.ReadReg ctrl.conn Emc2301TachLowReg s1 with ⟨rl, s2⟩
    cases rl with
    | err e =>
      rw [GetRPM_low_err B ctrl w h e s1 s2 hh hl] at hok
      simp at hok
    | ok l =>
      by_cases hz : tachOf h l = 0
      · rw [GetRPM_zero B ctrl w h l s1 s2 hh hl hz] at hok
        cases hok
      · by_cases hr : 500 < 3932160 / tachOf h l
        · rw [GetRPM_fast B ctrl w h l s1 s2 hh hl hz hr] at hok
          left
          refine ⟨tachOf h l, hr, ?_⟩
          have := Outcome.ret.inj hok
          exact ((Prod.mk.inj this).1).symm
        · rcases hd : B.ReadReg ctrl.conn Emc2301DutyCycleReg s2 with ⟨rd, s3⟩
          cases rd with
          | err e =>
            rw [GetRPM_slow_err B ctrl w h l e s1 s2 s3 hh hl hd hz hr] at hok
            simp at hok
          | ok v =>
            rw [GetRPM_slow B ctrl w h l v s1 s2 s3 hh hl hd hz hr] at hok
            right
            by_cases h0 : pctOfReg v = 0
            · simp only [if_pos h0] at hok
              left
              exact ((Prod.mk.inj (Outcome.ret.inj hok)).1).symm
            · simp only [if_neg h0] at hok
              right
              exact ((Prod.mk.inj (Outcome.ret.inj hok)).1).symm

/-- C14: whenever `GetRPM` returns a result without error, the result never has both
`Stopped` and `Undef` set; if `Stopped` or `Undef` is set then `Rpm` is 0; and if
neither is set (Measured) then `Rpm` is greater than 500. -/
theorem GetRPM_one_outcome (B : SMBus σ) (ctrl : EMC2301) (w : World σ) (r : RPMResult)
    (hok : (GetRPM B ctrl w).1 = .ret (r, none)) :
    ¬ (r.Stopped = true ∧ r.Undef = true) ∧
    ((r.Stopped = true ∨ r.Undef = true) → r.Rpm = 0) ∧
    ((r.Stopped = false ∧ r.Undef = false) → 500 < r.Rpm) := by
  rcases GetRPM_ok_cases B ctrl w r hok with ⟨t, ht, hr⟩ | hr | hr
  · subst hr
    refine ⟨by simp, by simp, fun _ => ?_⟩
    show (500 : Int) < ((3932160 / t : Nat) : Int)
    exact_mod_cast ht
  · subst hr
    simp
  · subst hr
    simp

/-- C14, on the measured result 122880 of the tach bytes 0x01, 0x00. -/
theorem GetRPM_one_outcome_witness :
    (GetRPM (staticBus (fun _ => .ok ()) (fanRegs 1 0 0) (.ok ())) ctrl1 world0).1 =
      .ret ({ Rpm := 122880, Stopped := false, Undef := false }, none) ∧
    (500 : Int) < 122880 :=
  ⟨rfl,
   (GetRPM_one_outcome (staticBus (fun _ => .ok ()) (fanRegs 1 0 0) (.ok ())) ctrl1 world0
      { Rpm := 122880, Stopped := false, Undef := false } rfl).2.2 ⟨rfl, rfl⟩⟩

/-- C15: `GetRPM` returns an error exactly when the read of the high tach byte
fails, or that read succeeds and the read of the low tach byte fails, or both succeed
with a tach count that is not zero and a candidate RPM of at most 500 and the read of
the drive setting register fails.  When the candidate RPM exceeds 500 the drive
setting register is not read: `GetRPM` ends after the two tach reads, without error.
With every error the returned result is the zero value. -/
theorem GetRPM_error_iff (B : SMBus σ) (ctrl : EMC2301) (w : World σ) :
    (∀ r err, (GetRPM B ctrl w).1 = .ret (r, some err) →
      r = { Rpm := 0, Stopped := false, Undef := false }) ∧
    ((∃ r err, (GetRPM B ctrl w).1 = .ret (r, some err)) ↔
      ((∃ e, (B.ReadReg ctrl.conn Emc2301TachHighReg w.st).1 = .err e) ∨
       (∃ h e, (B.ReadReg ctrl.conn Emc2301TachHighReg w.st).1 = .ok h ∧
          (B.ReadReg ctrl.conn Emc2301TachLowReg
            (B.ReadReg ctrl.conn Emc2301TachHighReg w.st).2).1 = .err e) ∨
       (∃ h l e, (B.ReadReg ctrl.conn Emc2301TachHighReg w.st).1 = .ok h ∧
          (B.ReadReg ctrl.conn Emc2301TachLowReg
            (B.ReadReg ctrl.conn Emc2301TachHighReg w.st).2).1 = .ok l ∧
          tachOf h l ≠ 0 ∧ 3932160 / tachOf h l ≤ 500 ∧
          (B.ReadReg ctrl.conn Emc2301DutyCycleReg
            (B.ReadReg ctrl.conn Emc2301TachLowReg
              (B.ReadReg ctrl.conn Emc2301TachHighReg w.st).2).2).1 = .err e))) ∧
    (∀ h l, (B.ReadReg ctrl.conn Emc2301TachHighReg w.st).1 = .ok h →
      (B.ReadReg ctrl.conn Emc2301TachLowReg
        (B.ReadReg ctrl.conn Emc2301TachHighReg w.st).2).1 = .ok l →
      tachOf h l ≠ 0 → 500 < 3932160 / tachOf h l →
      (∃ r, (GetRPM B ctrl w).1 = .ret (r, none)) ∧
      (GetRPM B ctrl w).2.st =
        (B.ReadReg ctrl.conn Emc2301TachLowReg
          (B.ReadReg ctrl.conn Emc2301TachHighReg w.st).2).2 ∧
      (GetRPM B ctrl w).2.log =
        w.log ++ [.read ctrl.conn Emc2301TachHighReg (.ok h),
                  .read ctrl.conn Emc2301TachLowReg (.ok l)]) := by
  rcases hh : B.ReadReg ctrl.conn Emc2301TachHighReg w.st with ⟨rh, s1⟩
  cases rh with
  | err e =>
    have hg := GetRPM_high_err B ctrl w e s1 hh
    refine ⟨?_, ?_, ?_⟩
    · intro r err hret
      rw [hg] at hret
      exact ((Prod.mk.inj (Outcome.ret.inj hret)).1).symm
    · exact ⟨fun _ => Or.inl ⟨e, rfl⟩, fun _ => ⟨_, _, by rw [hg]⟩⟩
    · intro h l hh1
      cases hh1
  | ok h =>
    rcases hl : B.ReadReg ctrl.conn Emc2301TachLowReg s1 with ⟨rl, s2⟩
    cases rl with
    | err e =>
      have hg := GetRPM_low_err B ctrl w h e s1 s2 hh hl
      refine ⟨?_, ?_, ?_⟩
      · intro r err hret
        rw [hg] at hret
        exact ((Prod.mk.inj (Outcome.ret.inj hret)).1).symm
      · exact ⟨fun _ => Or.inr (Or.inl ⟨h, e, rfl, by simp only [hl]⟩),
          fun _ => ⟨_, _, by rw [hg]⟩⟩
      · intro h1 l1 _ hl1
        simp only [hl] at hl1
        cases hl1
    | ok l =>
      by_cases hz : tachOf h l = 0
      · have hg := GetRPM_zero B ctrl w h l s1 s2 hh hl hz
        refine ⟨?_, ?_, ?_⟩
        · intro r err hret
          rw [hg] at hret
          cases hret
        · constructor
          · rintro ⟨r, err, hret⟩
            rw [hg] at hret
            cases hret
          · rintro (⟨e, he⟩ | ⟨h1, e, _, he⟩ | ⟨h1, l1, e, hh1, hl1, hz1, _⟩)
            · cases he
            · simp only [hl] at he
              cases he
            · simp only [hl] at hl1
              cases hh1
              cases hl1
              exact absurd hz hz1
        · intro h1 l1 hh1 hl1 hz1
          simp only [hl] at hl1
          cases hh1
          cases hl1
          exact absurd hz hz1
      · by_cases hr : 500 < 3932160 / tachOf h l
        · have hg := GetRPM_fast B ctrl w h l s1 s2 hh hl hz hr
          refine ⟨?_, ?_, ?_⟩
          · intro r err hret
            rw [hg] at hret
            simp at hret
          · constructor
            · rintro ⟨r, err, hret⟩
              rw [hg] at hret
              simp at hret
            · rintro (⟨e, he⟩ | ⟨h1, e, _, he⟩ | ⟨h1, l1, e, hh1, hl1, _, hr1, _⟩)
              · cases he
              · simp only [hl] at he
                cases he
              · simp only [hl] at hl1
                cases hh1
                cases hl1
                omega
          · intro h1 l1 hh1 hl1 _ _
            simp only [hl] at hl1 ⊢
            cases hh1
            cases hl1
            rw [hg]
            exact ⟨⟨_, rfl⟩, rfl, rfl⟩
        · refine ⟨?_, ?_, ?_⟩
          · intro r err hret
            rcases hd : B.ReadReg ctrl.conn Emc2301DutyCycleReg s2 with ⟨rd, s3⟩
            cases rd with
            | err e =>
              rw [GetRPM_slow_err B ctrl w h l e s1 s2 s3 hh hl hd hz hr] at hret
              exact ((Prod.mk.inj (Outcome.ret.inj hret)).1).symm
            | ok v =>
              rw [GetRPM_slow B ctrl w h l v s1 s2 s3 hh hl hd hz hr] at hret
              by_cases h0 : pctOfReg v = 0
              · simp [h0] at hret
              · simp [h0] at hret
          · constructor
            · rintro ⟨r, err, hret⟩
              rcases hd : B.ReadReg ctrl.conn Emc2301DutyCycleReg s2 with ⟨rd, s3⟩
              cases rd with
              | err e =>
                right
                right
                exact ⟨h, l, e, rfl, by simp only [hl], hz, by omega, by simp only [hl, hd]⟩
              | ok v =>
                rw [GetRPM_slow B ctrl w h l v s1 s2 s3 hh hl hd hz hr] at hret
                by_cases h0 : pctOfReg v = 0
                · simp [h0] at hret
                · simp [h0] at hret
            · rintro (⟨e, he⟩ | ⟨h1, e, _, he⟩ | ⟨h1, l1, e, _, _, _, _, hd1⟩)
              · cases he
              · simp only [hl] at he
                cases he
              · simp only [hl] at hd1
                have hd : B.ReadReg ctrl.conn Emc2301DutyCycleReg s2 =
                    (.err e, (B.ReadReg ctrl.conn Emc2301DutyCycleReg s2).2) :=
                  Prod.ext hd1 rfl
                exact ⟨_, _, by rw [GetRPM_slow_err B ctrl w h l e s1 s2 _ hh hl hd hz hr]⟩
          · intro h1 l1 hh1 hl1 _ hr1
            simp only [hl] at hl1
            cases hh1
            cases hl1
            exact absurd hr1 hr

/-- C15, on a device whose tach bytes 0xFF, 0xF8 give the candidate RPM 480 and whose
reads of the drive setting fail: `GetRPM` returns the zero result with the error. -/
theorem GetRPM_error_iff_witness :
    ∃ r err,
      (GetRPM (staticBus (fun _ => .ok ())
        (fun _ reg => if reg = Emc2301DutyCycleReg then .err 5
          else if reg = Emc2301TachHighReg then .ok 0xFF else .ok 0xF8) (.ok ()))
        ctrl1 world0).1 = .ret (r, some err) :=
  (GetRPM_error_iff _ ctrl1 world0).2.1.mpr
    (Or.inr (Or.inr ⟨0xFF, 0xF8, 5, rfl, rfl, by decide, by decide, rfl⟩))

/-! ### The range of the tach count -/

/-- A candidate RPM of a tach count that is not zero is at least 480. -/
theorem candidate_ge_480 (h l : Byte) (hz : tachOf h l ≠ 0) : 480 ≤ 3932160 / tachOf h l := by
  have hlt := tachOf_lt h l
  rw [Nat.le_div_iff_mul_le (by omega)]
  omega

/-- C17 fails as stated: the tach bytes 0xFF, 0xF8 give the largest count, 8191, and
the candidate RPM 480, and no pair of tach bytes gives the candidate RPM 400. -/
theorem no_candidate_400 :
    tachOf 0xFF 0xF8 = 8191 ∧ 3932160 / tachOf 0xFF 0xF8 = 480 ∧
    ¬ ∃ h l : Byte, 3932160 / tachOf h l = 400 := by
  refine ⟨by decide, by decide, ?_⟩
  rintro ⟨h, l, h400⟩
  by_cases hz : tachOf h l = 0
  · rw [hz] at h400
    simp at h400
  · have := candidate_ge_480 h l hz
    omega

/-- C17 as amended: the candidate RPM of every tach count that is not zero is at
least 480, and the tach bytes 0xFF, 0xF8 (count 8191) give the candidate RPM 480,
which is at most 500: with them `GetRPM` returns Stopped when the drive setting byte
is 0 and Undefined when it is 51 (20 %). -/
theorem candidate_at_most_500_exists :
    (∀ h l : Byte, tachOf h l ≠ 0 → 480 ≤ 3932160 / tachOf h l) ∧
    (tachOf 0xFF 0xF8 ≠ 0 ∧ 3932160 / tachOf 0xFF 0xF8 = 480) ∧
    (GetRPM (staticBus (fun _ => .ok ()) (fanRegs 0xFF 0xF8 0) (.ok ())) ctrl1 world0).1 =
      .ret ({ Rpm := 0, Stopped := true, Undef := false }, none) ∧
    (GetRPM (staticBus (fun _ => .ok ()) (fanRegs 0xFF 0xF8 51) (.ok ())) ctrl1 world0).1 =
      .ret ({ Rpm := 0, Stopped := false, Undef := true }, none) := by
  refine ⟨candidate_ge_480, ⟨by decide, by decide⟩, ?_, ?_⟩
  · rw [GetRPM_slow _ ctrl1 world0 0xFF 0xF8 0 () () () rfl rfl rfl (by decide) (by decide)]
    simp only [pctOfReg_examples.1, if_true]
  · rw [GetRPM_slow _ ctrl1 world0 0xFF 0xF8 51 () () () rfl rfl rfl (by decide) (by decide)]
    have h20 : ¬ pctOfReg 51 = 0 := by rw [pctOfReg_examples.2]; decide
    simp only [if_neg h20]

/-- Bytes that agree on the bits 3 to 7 have the same quotient by 8. -/
theorem shiftRight_eq_of_testBit (a b : Nat)
    (hbits : ∀ i, 3 ≤ i → a.testBit i = b.testBit i) : a >>> 3 = b >>> 3 := by
  apply Nat.eq_of_testBit_eq
  intro i
  rw [Nat.testBit_shiftRight, Nat.testBit_shiftRight]
  exact hbits (3 + i) (by omega)

/-- C18: the tach count `(high << 5) | (low >> 3)` is below 8192 and is the same for
two low bytes that agree on their bits 3 to 7; and when the reads of both tach bytes
and of the drive setting succeed, `GetRPM` returns a Measured result (no error, both
flags false) if and only if `1 ≤ tach ≤ 7848`, and returns Stopped or Undefined for
every tach from 7849 on (up to 8191). -/
theorem GetRPM_measured_iff (B : SMBus σ) (ctrl : EMC2301) (w : World σ) (h l v : Byte)
    (s1 s2 s3 : σ)
    (hh : B.ReadReg ctrl.conn Emc2301TachHighReg w.st = (.ok h, s1))
    (hl : B.ReadReg ctrl.conn Emc2301TachLowReg s1 = (.ok l, s2))
    (hd : B.ReadReg ctrl.conn Emc2301DutyCycleReg s2 = (.ok v, s3)) :
    (tachOf h l = (h.val <<< 5) ||| (l.val >>> 3) ∧ tachOf h l < 8192) ∧
    (∀ l2 : Byte, (∀ i, 3 ≤ i → l2.val.testBit i = l.val.testBit i) →
      tachOf h l2 = tachOf h l) ∧
    ((∃ rpm, (GetRPM B ctrl w).1 =
        .ret ({ Rpm := rpm, Stopped := false, Undef := false }, none)) ↔
      (1 ≤ tachOf h l ∧ tachOf h l ≤ 7848)) ∧
    (7849 ≤ tachOf h l →
      (GetRPM B ctrl w).1 = .ret ({ Rpm := 0, Stopped := true, Undef := false }, none) ∨
      (GetRPM B ctrl w).1 = .ret ({ Rpm := 0, Stopped := false, Undef := true }, none)) := by
  refine ⟨⟨tachOf_eq h l, tachOf_lt h l⟩, ?_, ?_, ?_⟩
  · intro l2 hbits
    rw [tachOf_eq, tachOf_eq, shiftRight_eq_of_testBit l2.val l.val hbits]
  · by_cases hz : tachOf h l = 0
    · constructor
      · rintro ⟨rpm, hret⟩
        rw [GetRPM_zero B ctrl w h l s1 s2 hh hl hz] at hret
        cases hret
      · rintro ⟨h1, _⟩
        omega
    · by_cases hr : 500 < 3932160 / tachOf h l
      · have hle := (candidate_gt_500_iff (tachOf h l) (by omega)).mp hr
        constructor
        · intro _
          exact ⟨by omega, hle⟩
        · intro _
          exact ⟨_, by rw [GetRPM_fast B ctrl w h l s1 s2 hh hl hz hr]⟩
      · have hgt : ¬ tachOf h l ≤ 7848 := fun hle =>
          hr ((candidate_gt_500_iff (tachOf h l) (by omega)).mpr hle)
        constructor
        · rintro ⟨rpm, hret⟩
          rw [GetRPM_slow B ctrl w h l v s1 s2 s3 hh hl hd hz hr] at hret
          by_cases h0 : pctOfReg v = 0
          · simp [h0] at hret
          · simp [h0] at hret
        · rintro ⟨_, hle⟩
          exact absurd hle hgt
  · intro hbig
    have hz : tachOf h l ≠ 0 := by omega
    have hr : ¬ 500 < 3932160 / tachOf h l := fun hr =>
      absurd ((candidate_gt_500_iff (tachOf h l) (by omega)).mp hr) (by omega)
    rw [GetRPM_slow B ctrl w h l v s1 s2 s3 hh hl hd hz hr]
    by_cases h0 : pctOfReg v = 0
    · left
      simp only [if_pos h0]
    · right
      simp only [if_neg h0]

/-- C18, at the last measured count, 7848 (bytes 0xF5, 0x40, RPM 501), and at the
first count beyond, 7849 (bytes 0xF5, 0x48). -/
theorem GetRPM_measured_iff_witness :
    (tachOf 0xF5 0x40 = 7848 ∧
      ∃ rpm, (GetRPM (staticBus (fun _ => .ok ()) (fanRegs 0xF5 0x40 0) (.ok ())) ctrl1
        world0).1 = .ret ({ Rpm := rpm, Stopped := false, Undef := false }, none)) ∧
    (tachOf 0xF5 0x48 = 7849 ∧
      ¬ ∃ rpm, (GetRPM (staticBus (fun _ => .ok ()) (fanRegs 0xF5 0x48 0) (.ok ())) ctrl1
        world0).1 = .ret ({ Rpm := rpm, Stopped := false, Undef := false }, none)) :=
  ⟨⟨by decide,
    (GetRPM_measured_iff (staticBus (fun _ => .ok ()) (fanRegs 0xF5 0x40 0) (.ok ())) ctrl1
      world0 0xF5 0x40 0 () () () rfl rfl rfl).2.2.1.mpr ⟨by decide, by decide⟩⟩,
   ⟨by decide, fun hm =>
    absurd ((GetRPM_measured_iff (staticBus (fun _ => .ok ()) (fanRegs 0xF5 0x48 0) (.ok ()))
      ctrl1 world0 0xF5 0x48 0 () () () rfl rfl rfl).2.2.1.mp hm).2 (by decide)⟩⟩

/-! ### Duty cycle: the exact round trip and the byte 1 -/

/-- C19: on a bus whose drive setting register returns the last byte written to it,
for every `pct` in 0..100 `SetDutyCycle(pct)` succeeds and the `GetDutyCycle()` that
follows returns exactly `pct`, without error; so two percentages in 0..100 with the
same register byte are equal. -/
theorem set_get_exact (B : SMBus σ) (ctrl : EMC2301) (pct : Int) (w : World σ)
    (hB : ReturnsLastWritten B ctrl.conn) (h0 : 0 ≤ pct) (h1 : pct ≤ 100) :
    (SetDutyCycle B ctrl pct w).1 = none ∧
    (GetDutyCycle B ctrl (SetDutyCycle B ctrl pct w).2).1 = (pct, none) ∧
    pctOfReg (regOfPct pct) = pct ∧
    (∀ q : Int, 0 ≤ q → q ≤ 100 → regOfPct pct = regOfPct q → pct = q) := by
  obtain ⟨hw, hr⟩ := hB (regOfPct pct) w.st
  obtain ⟨p, hp⟩ := exists_fin_of_pct pct h0 h1
  have hrt : pctOfReg (regOfPct pct) = pct := by
    rw [← hp]
    exact pctOfReg_regOfPct p
  rw [SetDutyCycle_of_range B ctrl pct w h0 h1]
  refine ⟨by simp only [hw], ?_, hrt, ?_⟩
  · rw [GetDutyCycle_of_read B ctrl _ (regOfPct pct)
      (B.ReadReg ctrl.conn Emc2301DutyCycleReg
        (B.WriteReg ctrl.conn Emc2301DutyCycleReg (regOfPct pct) w.st).2).2
      (Prod.ext hr rfl), hrt]
  · intro q hq0 hq1 heq
    obtain ⟨p2, hp2⟩ := exists_fin_of_pct q hq0 hq1
    have hq : pctOfReg (regOfPct q) = q := by
      rw [← hp2]
      exact pctOfReg_regOfPct p2
    rw [← hrt, ← hq, heq]

/-- C19, on the register file with `pct = 37`. -/
theorem set_get_exact_witness :
    (SetDutyCycle regFileBus ctrl1 37 ⟨fun _ => 0, []⟩).1 = none ∧
    (GetDutyCycle regFileBus ctrl1
      (SetDutyCycle regFileBus ctrl1 37 ⟨fun _ => 0, []⟩).2).1 = (37, none) :=
  ⟨(set_get_exact regFileBus ctrl1 37 ⟨fun _ => 0, []⟩
      (fun d s => by simp [regFileBus]) (by decide) (by decide)).1,
   (set_get_exact regFileBus ctrl1 37 ⟨fun _ => 0, []⟩
      (fun d s => by simp [regFileBus]) (by decide) (by decide)).2.1⟩

/-- In exact arithmetic the percentage of a byte is 0 exactly for the bytes 0 and 1. -/
theorem specPctOfReg_eq_zero_iff : ∀ v : Byte, specPctOfReg v.val = 0 ↔ v.val ≤ 1 := by
  set_option maxRecDepth 100000 in decide!

/-- The percentage `GetDutyCycle` computes is 0 exactly for the bytes 0 and 1. -/
theorem pctOfReg_eq_zero_iff (v : Byte) : pctOfReg v = 0 ↔ v.val ≤ 1 := by
  rw [pctOfReg_float v]
  exact specPctOfReg_eq_zero_iff v

/-- C20: when both tach reads succeed with a tach count that is not zero and a
candidate RPM of at most 500, and the read of the drive setting answers the byte
`v`, `GetRPM` returns Stopped if and only if `v` is 0 or 1, and returns Undefined for
every `v` from 2 to 255; the byte 1 is 0 percent. -/
theorem GetRPM_stopped_iff_byte (B : SMBus σ) (ctrl : EMC2301) (w : World σ) (h l v : Byte)
    (s1 s2 s3 : σ)
    (hh : B.ReadReg ctrl.conn Emc2301TachHighReg w.st = (.ok h, s1))
    (hl : B.ReadReg ctrl.conn Emc2301TachLowReg s1 = (.ok l, s2))
    (hd : B.ReadReg ctrl.conn Emc2301DutyCycleReg s2 = (.ok v, s3))
    (hz : tachOf h l ≠ 0) (hr : 3932160 / tachOf h l ≤ 500) :
    ((GetRPM B ctrl w).1 = .ret ({ Rpm := 0, Stopped := true, Undef := false }, none) ↔
      v.val ≤ 1) ∧
    (2 ≤ v.val →
      (GetRPM B ctrl w).1 = .ret ({ Rpm := 0, Stopped := false, Undef := true }, none)) ∧
    pctOfReg 1 = 0 := by
  have hr2 : ¬ 500 < 3932160 / tachOf h l := by omega
  have h1 : pctOfReg 1 = 0 := (pctOfReg_eq_zero_iff 1).mpr (by decide)
  rw [GetRPM_slow B ctrl w h l v s1 s2 s3 hh hl hd hz hr2]
  by_cases h0 : pctOfReg v = 0
  · have hv := (pctOfReg_eq_zero_iff v).mp h0
    rw [if_pos h0]
    exact ⟨⟨fun _ => hv, fun _ => rfl⟩, fun h2 => absurd hv (by omega), h1⟩
  · have hv : ¬ v.val ≤ 1 := fun hv => h0 ((pctOfReg_eq_zero_iff v).mpr hv)
    rw [if_neg h0]
    refine ⟨⟨fun hs => ?_, fun hle => absurd hle hv⟩, fun _ => rfl, h1⟩
    simp at hs

/-- C20, at the tach bytes 0xFF, 0xF8 with the drive setting byte 1: Stopped. -/
theorem GetRPM_stopped_iff_byte_witness :
    (GetRPM (staticBus (fun _ => .ok ()) (fanRegs 0xFF 0xF8 1) (.ok ())) ctrl1 world0).1 =
      .ret ({ Rpm := 0, Stopped := true, Undef := false }, none) :=
  (GetRPM_stopped_iff_byte (staticBus (fun _ => .ok ()) (fanRegs 0xFF 0xF8 1) (.ok ()))
    ctrl1 world0 0xFF 0xF8 1 () () () rfl rfl rfl (by decide) (by decide)).1.mpr (by decide)

/-! ### The log of a scan -/

/-- The calls of one probe: a failed open, or an open, one read of the identity
register and the close, all on the connection numbered by the length of the log. -/
theorem probe_log_cases (B : SMBus σ) (bus : Nat) (w : World σ) :
    (∃ code, (probe B bus w).2.log = w.log ++ [.openFailed (bus : Int) 0x00 code]) ∨
    (∃ r, (probe B bus w).2.log = w.log ++
      [.opened ⟨w.log.length, (bus : Int), 0x00⟩,
       .read ⟨w.log.length, (bus : Int), 0x00⟩ Emc2301ProductIdReg r,
       .closed ⟨w.log.length, (bus : Int), 0x00⟩]) := by
  unfold probe smbusOpen connReadReg connClose Emc2301ProductIdReg
  rcases B.Open (bus : Int) 0x00 w.st with ⟨ro, s1⟩
  cases ro with
  | err e => exact Or.inl ⟨e, rfl⟩
  | ok u =>
    rcases hr : B.ReadReg ⟨w.log.length, (bus : Int), 0x00⟩ 0xFD s1 with ⟨rr, s2⟩
    cases rr with
    | err e => exact Or.inr ⟨.err e, by simp [hr]⟩
    | ok v => exact Or.inr ⟨.ok v, by simp [hr]⟩

/-- The scan up to bus `n` leaves a trace of probes. -/
theorem worldBefore_trace (B : SMBus σ) (w : World σ) (n : Nat) :
    ∃ es, (worldBefore B w n).log = w.log ++ es ∧ ProbeTrace w.log.length es := by
  induction n with
  | zero => exact ⟨[], by simp [worldBefore], .nil⟩
  | succ k ih =>
    obtain ⟨es, hes, ht⟩ := ih
    rcases probe_log_cases B k (worldBefore B w k) with ⟨code, hp⟩ | ⟨r, hp⟩
    · refine ⟨es ++ [.openFailed (k : Int) 0x00 code], ?_, .failed es _ code ht⟩
      show (probe B k (worldBefore B w k)).2.log = _
      rw [hp, hes, List.append_assoc]
    · refine ⟨_, ?_, .probed es (k : Int) r ht⟩
      show (probe B k (worldBefore B w k)).2.log = _
      rw [hp, hes, List.length_append, List.append_assoc]

/-- The connections of a trace of probes carry the serial numbers from `base` up to
the length of the log. -/
theorem ProbeTrace.conn_id {base : Nat} {es : List Event} (ht : ProbeTrace base es) :
    ∀ e ∈ es, ∀ c, e.conn = some c → base ≤ c.id ∧ c.id < base + es.length := by
  induction ht with
  | nil => intro e he; cases he
  | failed es bus code _ ih =>
    intro e he c hc
    rcases List.mem_append.mp he with h | h
    · have := ih e h c hc
      simp only [List.length_append, List.length_singleton]
      omega
    · simp only [List.mem_singleton] at h
      subst h
      simp [Event.conn] at hc
  | probed es bus r _ ih =>
    intro e he c hc
    rcases List.mem_append.mp he with h | h
    · have := ih e h c hc
      simp only [List.length_append, List.length_cons, List.length_nil]
      omega
    · simp only [List.mem_cons, List.mem_singleton, List.not_mem_nil, or_false] at h
      rcases h with h | h | h <;> subst h <;> simp only [Event.conn, Option.some.injEq] at hc <;>
        subst hc <;> simp only [List.length_append, List.length_cons, List.length_nil] <;> omega

/-- A trace of probes holds no register write, and its only reads are of the identity
register. -/
theorem ProbeTrace.regs {base : Nat} {es : List Event} (ht : ProbeTrace base es) :
    ∀ e ∈ es, e.isWrote = false ∧ ∀ reg, e.reg = some reg → reg = Emc2301ProductIdReg := by
  induction ht with
  | nil => intro e he; cases he
  | failed es bus code _ ih =>
    intro e he
    rcases List.mem_append.mp he with h | h
    · exact ih e h
    · simp only [List.mem_singleton] at h
      subst h
      simp [Event.isWrote, Event.reg]
  | probed es bus r _ ih =>
    intro e he
    rcases List.mem_append.mp he with h | h
    · exact ih e h
    · simp only [List.mem_cons, List.mem_singleton, List.not_mem_nil, or_false] at h
      rcases h with h | h | h <;> subst h <;> simp [Event.isWrote, Event.reg]

/-- The number of open connections adds up over a log in two parts. -/
theorem openConns_append (a b : List Event) : openConns (a ++ b) = openConns a + openConns b := by
  simp only [openConns, List.countP_append]
  push_cast
  ring

/-- During a trace of probes at most one connection is open at any time, and none is
open at its end. -/
theorem ProbeTrace.open_balance {base : Nat} {es : List Event} (ht : ProbeTrace base es) :
    openConns es = 0 ∧ ∀ n, 0 ≤ openConns (es.take n) ∧ openConns (es.take n) ≤ 1 := by
  induction ht with
  | nil => exact ⟨rfl, fun n => by simp [openConns]⟩
  | failed es bus code _ ih =>
    obtain ⟨h0, hpre⟩ := ih
    refine ⟨by rw [openConns_append, h0]; rfl, fun n => ?_⟩
    rw [List.take_append_eq_append_take, openConns_append]
    have h1 := hpre n
    have h2 : openConns (List.take (n - es.length) [Event.openFailed bus 0x00 code]) = 0 := by
      rcases Nat.eq_zero_or_pos (n - es.length) with hk | hk
      · rw [hk]; rfl
      · rw [List.take_of_length_le (by simp only [List.length_singleton]; omega)]; rfl
    rw [h2]
    omega
  | probed es bus r _ ih =>
    obtain ⟨h0, hpre⟩ := ih
    refine ⟨by rw [openConns_append, h0]; rfl, fun n => ?_⟩
    rw [List.take_append_eq_append_take, openConns_append]
    by_cases hn : n ≤ es.length
    · have hk : n - es.length = 0 := by omega
      have h1 := hpre n
      rw [hk]
      simp only [List.take_zero]
      have hnil : openConns [] = 0 := rfl
      rw [hnil]
      omega
    · rw [List.take_of_length_le (by omega), h0]
      have hcases : n - es.length = 1 ∨ n - es.length = 2 ∨ 3 ≤ n - es.length := by omega
      rcases hcases with hk | hk | hk
      · rw [hk]; simp [openConns, Event.isOpened, Event.isClosed]
      · rw [hk]; simp [openConns, Event.isOpened, Event.isClosed]
      · rw [List.take_of_length_le
          (by simp only [List.length_cons, List.length_nil]; omega)]
        simp [openConns, Event.isOpened, Event.isClosed]

/-- A connection whose serial number is not below the length of the log has not
been opened or closed in a trace of probes. -/
theorem ProbeTrace.fresh {base : Nat} {es : List Event} (ht : ProbeTrace base es) (c : Conn)
    (hid : base + es.length ≤ c.id) :
    es.count (.opened c) = 0 ∧ closeCount c es = 0 := by
  constructor
  · apply List.count_eq_zero.mpr
    intro hm
    have := ht.conn_id _ hm c rfl
    omega
  · apply List.count_eq_zero.mpr
    intro hm
    have := ht.conn_id _ hm c rfl
    omega

/-- In a trace of probes every connection that was opened was opened once and closed
once, and only connections that were opened are closed. -/
theorem ProbeTrace.closed_once {base : Nat} {es : List Event} (ht : ProbeTrace base es) :
    (∀ c, .opened c ∈ es → es.count (.opened c) = 1 ∧ closeCount c es = 1) ∧
    (∀ c, .closed c ∈ es → .opened c ∈ es) := by
  induction ht with
  | nil => exact ⟨fun c hc => (by cases hc), fun c hc => (by cases hc)⟩
  | failed es bus code _ ih =>
    obtain ⟨ih1, ih2⟩ := ih
    constructor
    · intro c hc
      rcases List.mem_append.mp hc with h | h
      · obtain ⟨h1, h2⟩ := ih1 c h
        unfold closeCount at h2 ⊢
        rw [List.count_append, List.count_append, h1, h2]
        simp
      · simp at h
    · intro c hc
      rcases List.mem_append.mp hc with h | h
      · exact List.mem_append_left _ (ih2 c h)
      · simp at h
  | probed es bus r ht0 ih =>
    obtain ⟨ih1, ih2⟩ := ih
    constructor
    · intro c hc
      rcases List.mem_append.mp hc with h | h
      · obtain ⟨h1, h2⟩ := ih1 c h
        have hid := ht0.conn_id _ h c rfl
        have hne : ¬ (⟨base + es.length, bus, 0x00⟩ : Conn) = c := by
          intro heq
          rw [← heq] at hid
          simp at hid
        unfold closeCount at h2 ⊢
        rw [List.count_append, List.count_append, h1, h2]
        simp [List.count_cons, hne]
      · simp only [List.mem_cons, List.mem_singleton, List.not_mem_nil, or_false] at h
        rcases h with h | h | h
        · have hc0 : c = ⟨base + es.length, bus, 0x00⟩ := Event.opened.inj h
          subst hc0
          obtain ⟨f1, f2⟩ := ht0.fresh ⟨base + es.length, bus, 0x00⟩ le_rfl
          unfold closeCount at f2 ⊢
          rw [List.count_append, List.count_append, f1, f2]
          simp [List.count_cons]
        · cases h
        · cases h
    · intro c hc
      rcases List.mem_append.mp hc with h | h
      · exact List.mem_append_left _ (ih2 c h)
      · simp only [List.mem_cons, List.mem_singleton, List.not_mem_nil, or_false] at h
        rcases h with h | h | h
        · cases h
        · cases h
        · have hc0 : c = ⟨base + es.length, bus, 0x00⟩ := Event.closed.inj h
          subst hc0
          exact List.mem_append_right _ (List.mem_cons_self _ _)

/-- In a trace of probes every read is made on a connection opened in the trace. -/
theorem ProbeTrace.read_opened {base : Nat} {es : List Event} (ht : ProbeTrace base es) :
    ∀ c reg r, .read c reg r ∈ es → .opened c ∈ es := by
  induction ht with
  | nil => intro c reg r hc; cases hc
  | failed es bus code _ ih =>
    intro c reg r hc
    rcases List.mem_append.mp hc with h | h
    · exact List.mem_append_left _ (ih c reg r h)
    · simp at h
  | probed es bus r0 _ ih =>
    intro c reg r hc
    rcases List.mem_append.mp hc with h | h
    · exact List.mem_append_left _ (ih c reg r h)
    · simp only [List.mem_cons, List.mem_singleton, List.not_mem_nil, or_false] at h
      rcases h with h | h | h
      · cases h
      · have hc0 : c = ⟨base + es.length, bus, 0x00⟩ := (Event.read.inj h).1
        subst hc0
        exact List.mem_append_right _ (List.mem_cons_self _ _)
      · cases h

/-- The scan of `FindEmc2301Address` leaves a trace of probes. -/
theorem FindEmc2301Address_trace (B : SMBus σ) (w : World σ) :
    ∃ es, (FindEmc2301Address B w).2.log = w.log ++ es ∧ ProbeTrace w.log.length es := by
  rcases FindEmc2301Address_cases B w with ⟨b0, _, _, _, hf⟩ | ⟨_, hf⟩
  · rw [hf]
    exact worldBefore_trace B w (b0 + 1)
  · rw [hf]
    exact worldBefore_trace B w 11

/-- C16: the calls `FindEmc2301Address` makes on the bus are such that after every
one of them at most one probe connection is open (opens minus closes is 0 or 1) and
at its return none is open: every connection it opened was opened once and closed
exactly once, whatever its identity read answered, and it closed no other
connection. -/
theorem FindEmc2301Address_closes_probes (B : SMBus σ) (w : World σ) :
    ∃ es, (FindEmc2301Address B w).2.log = w.log ++ es ∧
      (∀ n, 0 ≤ openConns (es.take n) ∧ openConns (es.take n) ≤ 1) ∧
      openConns es = 0 ∧
      (∀ c, .opened c ∈ es → es.count (.opened c) = 1 ∧ closeCount c es = 1) ∧
      (∀ c, .closed c ∈ es → .opened c ∈ es) ∧
      (∀ c r, .read c Emc2301ProductIdReg r ∈ es → closeCount c es = 1) := by
  obtain ⟨es, hes, ht⟩ := FindEmc2301Address_trace B w
  refine ⟨es, hes, ht.open_balance.2, ht.open_balance.1, ht.closed_once.1, ht.closed_once.2, ?_⟩
  intro c r hr
  exact (ht.closed_once.1 c (ht.read_opened c _ r hr)).2

/-! ### `New`: every way it ends -/

/-- A successful open appends one event and returns the connection numbered by the
length of the log. -/
theorem smbusOpen_ok (B : SMBus σ) (bus : Int) (addr : Nat) (w : World σ) (c : Conn)
    (w1 : World σ) (h : smbusOpen B bus addr w = (.ok c, w1)) :
    c = ⟨w.log.length, bus, addr⟩ ∧ w1.log = w.log ++ [.opened c] := by
  unfold smbusOpen at h
  rcases ho : B.Open bus addr w.st with ⟨ro, s⟩
  rw [ho] at h
  cases ro with
  | err e => simp at h
  | ok u =>
    simp only [Prod.mk.injEq, Res.ok.injEq] at h
    obtain ⟨hc, hw⟩ := h
    subst hc
    subst hw
    exact ⟨rfl, rfl⟩

/-- When the scan fails, `New` returns its error. -/
theorem New_find_err (B : SMBus σ) (w : World σ) (a : Int) (err : Error) (w1 : World σ)
    (hfind : FindEmc2301Address B w = ((a, some err), w1)) :
    New B w = ((none, some err), w1) := by
  unfold New
  rw [hfind]

/-- When the open of the real connection fails, `New` returns its error. -/
theorem New_open_err (B : SMBus σ) (w : World σ) (b : Int) (w1 : World σ) (e : Nat)
    (w2 : World σ)
    (hfind : FindEmc2301Address B w = ((b, none), w1))
    (hopen : smbusOpen B b Emc2301ProductIdReg w1 = (.err e, w2)) :
    New B w = ((none, some (.smbus e)), w2) := by
  unfold New
  rw [hfind]
  dsimp only
  rw [hopen]

/-- What `ReadReg` returns and logs, from the answer of the bus. -/
theorem connReadReg_eq (B : SMBus σ) (c : Conn) (reg : Nat) (w : World σ) (r : Res Byte)
    (s : σ) (h : B.ReadReg c reg w.st = (r, s)) :
    connReadReg B c reg w = (r, ⟨s, w.log ++ [.read c reg r]⟩) := by
  unfold connReadReg
  rw [h]

/-- What `WriteReg` returns and logs, from the answer of the bus. -/
theorem connWriteReg_eq (B : SMBus σ) (c : Conn) (reg : Nat) (d : Byte) (w : World σ)
    (r : Res Unit) (s : σ) (h : B.WriteReg c reg d w.st = (r, s)) :
    connWriteReg B c reg d w = (r, ⟨s, w.log ++ [.wrote c reg d r]⟩) := by
  unfold connWriteReg
  rw [h]

/-- When the read of the identity on the real connection fails, `New` closes the
connection and returns the error. -/
theorem New_id_err (B : SMBus σ) (w : World σ) (b : Int) (w1 : World σ) (c : Conn)
    (w2 : World σ) (e : Nat) (s3 : σ)
    (hfind : FindEmc2301Address B w = ((b, none), w1))
    (hopen : smbusOpen B b Emc2301ProductIdReg w1 = (.ok c, w2))
    (hid : B.ReadReg c Emc2301ProductIdReg w2.st = (.err e, s3)) :
    New B w = ((none, some (.smbus e)),
      ⟨B.Close c s3, w2.log ++ [.read c Emc2301ProductIdReg (.err e), .closed c]⟩) := by
  unfold New
  rw [hfind]
  dsimp only
  rw [hopen]
  dsimp only
  rw [connReadReg_eq B c _ w2 _ s3 hid]
  simp only [connClose, List.append_assoc, List.singleton_append]

/-- When the identity read on the real connection answers a byte other than 0x37,
`New` closes the connection and fails with "unexpected product id". -/
theorem New_id_mismatch (B : SMBus σ) (w : World σ) (b : Int) (w1 : World σ) (c : Conn)
    (w2 : World σ) (v : Byte) (s3 : σ)
    (hfind : FindEmc2301Address B w = ((b, none), w1))
    (hopen : smbusOpen B b Emc2301ProductIdReg w1 = (.ok c, w2))
    (hid : B.ReadReg c Emc2301ProductIdReg w2.st = (.ok v, s3))
    (hv : v.val ≠ 0x37) :
    New B w = ((none, some .unexpectedProductId),
      ⟨B.Close c s3, w2.log ++ [.read c Emc2301ProductIdReg (.ok v), .closed c]⟩) := by
  have hval : Emc2301ProductIdVal ≠ v.val := fun h => hv h.symm
  unfold New
  rw [hfind]
  dsimp only
  rw [hopen]
  dsimp only
  rw [connReadReg_eq B c _ w2 _ s3 hid]
  dsimp only
  rw [if_pos hval]
  simp only [connClose, List.append_assoc, List.singleton_append]

/-- When the identity is 0x37 and the read of the configuration fails, `New` closes
the connection and returns the error. -/
theorem New_conf_err (B : SMBus σ) (w : World σ) (b : Int) (w1 : World σ) (c : Conn)
    (w2 : World σ) (v : Byte) (s3 : σ) (e : Nat) (s4 : σ)
    (hfind : FindEmc2301Address B w = ((b, none), w1))
    (hopen : smbusOpen B b Emc2301ProductIdReg w1 = (.ok c, w2))
    (hid : B.ReadReg c Emc2301ProductIdReg w2.st = (.ok v, s3))
    (hv : v.val = 0x37)
    (hconf : B.ReadReg c Emc2301ConfigReg s3 = (.err e, s4)) :
    New B w = ((none, some (.smbus e)),
      ⟨B.Close c s4, w2.log ++ [.read c Emc2301ProductIdReg (.ok v),
        .read c Emc2301ConfigReg (.err e), .closed c]⟩) := by
  have hval : ¬ Emc2301ProductIdVal ≠ v.val := fun h => h hv.symm
  unfold New
  rw [hfind]
  dsimp only
  rw [hopen]
  dsimp only
  rw [connReadReg_eq B c _ w2 _ s3 hid]
  dsimp only
  rw [if_neg hval, connReadReg_eq B c _ ⟨s3, _⟩ _ s4 hconf]
  simp only [connClose, List.append_assoc, List.singleton_append, List.cons_append,
    List.nil_append]

/-- When the identity is 0x37, the configuration reads `conf` and the write of the
configuration fails, `New` closes the connection and returns the error. -/
theorem New_write_err (B : SMBus σ) (w : World σ) (b : Int) (w1 : World σ) (c : Conn)
    (w2 : World σ) (v : Byte) (s3 : σ) (conf : Byte) (s4 : σ) (e : Nat) (s5 : σ)
    (hfind : FindEmc2301Address B w = ((b, none), w1))
    (hopen : smbusOpen B b Emc2301ProductIdReg w1 = (.ok c, w2))
    (hid : B.ReadReg c Emc2301ProductIdReg w2.st = (.ok v, s3))
    (hv : v.val = 0x37)
    (hconf : B.ReadReg c Emc2301ConfigReg s3 = (.ok conf, s4))
    (hwr : B.WriteReg c Emc2301ConfigReg (clearRange conf) s4 = (.err e, s5)) :
    New B w = ((none, some (.smbus e)),
      ⟨B.Close c s5, w2.log ++ [.read c Emc2301ProductIdReg (.ok v),
        .read c Emc2301ConfigReg (.ok conf),
        .wrote c Emc2301ConfigReg (clearRange conf) (.err e), .closed c]⟩) := by
  have hval : ¬ Emc2301ProductIdVal ≠ v.val := fun h => h hv.symm
  unfold New
  rw [hfind]
  dsimp only
  rw [hopen]
  dsimp only
  rw [connReadReg_eq B c _ w2 _ s3 hid]
  dsimp only
  rw [if_neg hval, connReadReg_eq B c _ ⟨s3, _⟩ _ s4 hconf]
  dsimp only
  rw [connWriteReg_eq B c _ _ ⟨s4, _⟩ _ s5 hwr]
  simp only [connClose, List.append_assoc, List.singleton_append, List.cons_append,
    List.nil_append]

/-- When the identity is 0x37, the configuration reads `conf` and its write succeeds,
`New` returns the handle on the connection, which it leaves open. -/
theorem New_ok (B : SMBus σ) (w : World σ) (b : Int) (w1 : World σ) (c : Conn)
    (w2 : World σ) (v : Byte) (s3 : σ) (conf : Byte) (s4 : σ) (s5 : σ)
    (hfind : FindEmc2301Address B w = ((b, none), w1))
    (hopen : smbusOpen B b Emc2301ProductIdReg w1 = (.ok c, w2))
    (hid : B.ReadReg c Emc2301ProductIdReg w2.st = (.ok v, s3))
    (hv : v.val = 0x37)
    (hconf : B.ReadReg c Emc2301ConfigReg s3 = (.ok conf, s4))
    (hwr : B.WriteReg c Emc2301ConfigReg (clearRange conf) s4 = (.ok (), s5)) :
    New B w = ((some ⟨c⟩, none),
      ⟨s5, w2.log ++ [.read c Emc2301ProductIdReg (.ok v),
        .read c Emc2301ConfigReg (.ok conf),
        .wrote c Emc2301ConfigReg (clearRange conf) (.ok ())]⟩) := by
  have hval : ¬ Emc2301ProductIdVal ≠ v.val := fun h => h hv.symm
  unfold New
  rw [hfind]
  dsimp only
  rw [hopen]
  dsimp only
  rw [connReadReg_eq B c _ w2 _ s3 hid]
  dsimp only
  rw [if_neg hval, connReadReg_eq B c _ ⟨s3, _⟩ _ s4 hconf]
  dsimp only
  rw [connWriteReg_eq B c _ _ ⟨s4, _⟩ _ s5 hwr]
  simp only [List.append_assoc, List.singleton_append, List.cons_append, List.nil_append]

/-- Once the real connection `c` is open, `New` ends in one of five ways, decided by
the answers of the bus: the identity read fails; it answers another byte than 0x37;
the configuration read fails; the configuration write fails; or all succeed. -/
theorem New_after_open_cases (B : SMBus σ) (w : World σ) (b : Int) (w1 : World σ) (c : Conn)
    (w2 : World σ)
    (hfind : FindEmc2301Address B w = ((b, none), w1))
    (hopen : smbusOpen B b Emc2301ProductIdReg w1 = (.ok c, w2)) :
    (∃ e s3, B.ReadReg c Emc2301ProductIdReg w2.st = (.err e, s3) ∧
      New B w = ((none, some (.smbus e)),
        ⟨B.Close c s3, w2.log ++ [.read c Emc2301ProductIdReg (.err e), .closed c]⟩)) ∨
    (∃ v s3, B.ReadReg c Emc2301ProductIdReg w2.st = (.ok v, s3) ∧ v.val ≠ 0x37 ∧
      New B w = ((none, some .unexpectedProductId),
        ⟨B.Close c s3, w2.log ++ [.read c Emc2301ProductIdReg (.ok v), .closed c]⟩)) ∨
    (∃ s3 e s4, B.ReadReg c Emc2301ProductIdReg w2.st = (.ok 0x37, s3) ∧
      B.ReadReg c Emc2301ConfigReg s3 = (.err e, s4) ∧
      New B w = ((none, some (.smbus e)),
        ⟨B.Close c s4, w2.log ++ [.read c Emc2301ProductIdReg (.ok 0x37),
          .read c Emc2301ConfigReg (.err e), .closed c]⟩)) ∨
    (∃ s3 conf s4 e s5, B.ReadReg c Emc2301ProductIdReg w2.st = (.ok 0x37, s3) ∧
      B.ReadReg c Emc2301ConfigReg s3 = (.ok conf, s4) ∧
      B.WriteReg c Emc2301ConfigReg (clearRange conf) s4 = (.err e, s5) ∧
      New B w = ((none, some (.smbus e)),
        ⟨B.Close c s5, w2.log ++ [.read c Emc2301ProductIdReg (.ok 0x37),
          .read c Emc2301ConfigReg (.ok conf),
          .wrote c Emc2301ConfigReg (clearRange conf) (.err e), .closed c]⟩)) ∨
    (∃ s3 conf s4 s5, B.ReadReg c Emc2301ProductIdReg w2.st = (.ok 0x37, s3) ∧
      B.ReadReg c Emc2301ConfigReg s3 = (.ok conf, s4) ∧
      B.WriteReg c Emc2301ConfigReg (clearRange conf) s4 = (.ok (), s5) ∧
      New B w = ((some ⟨c⟩, none),
        ⟨s5, w2.log ++ [.read c Emc2301ProductIdReg (.ok 0x37),
          .read c Emc2301ConfigReg (.ok conf),
          .wrote c Emc2301ConfigReg (clearRange conf) (.ok ())]⟩)) := by
  rcases hid : B.ReadReg c Emc2301ProductIdReg w2.st with ⟨rid, s3⟩
  cases rid with
  | err e => exact Or.inl ⟨e, s3, rfl, New_id_err B w b w1 c w2 e s3 hfind hopen hid⟩
  | ok v =>
    by_cases hv : v.val = 0x37
    · have hv37 : v = 0x37 := Fin.ext hv
      subst hv37
      rcases hconf : B.ReadReg c Emc2301ConfigReg s3 with ⟨rc, s4⟩
      cases rc with
      | err e =>
        exact Or.inr (Or.inr (Or.inl ⟨s3, e, s4, rfl, hconf,
          New_conf_err B w b w1 c w2 0x37 s3 e s4 hfind hopen hid hv hconf⟩))
      | ok conf =>
        rcases hwr : B.WriteReg c Emc2301ConfigReg (clearRange conf) s4 with ⟨rw, s5⟩
        cases rw with
        | err e =>
          exact Or.inr (Or.inr (Or.inr (Or.inl ⟨s3, conf, s4, e, s5, rfl, hconf, hwr,
            New_write_err B w b w1 c w2 0x37 s3 conf s4 e s5 hfind hopen hid hv hconf hwr⟩)))
        | ok u =>
          exact Or.inr (Or.inr (Or.inr (Or.inr ⟨s3, conf, s4, s5, rfl, hconf, hwr,
            New_ok B w b w1 c w2 0x37 s3 conf s4 s5 hfind hopen hid hv hconf hwr⟩)))
    · exact Or.inr (Or.inl ⟨v, s3, rfl, hv,
        New_id_mismatch B w b w1 c w2 v s3 hfind hopen hid hv⟩)

/-- When `New` returns a handle, the scan found a bus, the real connection was opened
on it, its identity read answered 0x37, its configuration was read and the write of
the configuration succeeded. -/
theorem New_ok_inv (B : SMBus σ) (w : World σ) (hdl : EMC2301)
    (hok : (New B w).1.1 = some hdl) :
    ∃ b w1 w2 s3 conf s4 s5,
      FindEmc2301Address B w = ((b, none), w1) ∧
      smbusOpen B b Emc2301ProductIdReg w1 = (.ok hdl.conn, w2) ∧
      B.ReadReg hdl.conn Emc2301ProductIdReg w2.st = (.ok 0x37, s3) ∧
      B.ReadReg hdl.conn Emc2301ConfigReg s3 = (.ok conf, s4) ∧
      B.WriteReg hdl.conn Emc2301ConfigReg (clearRange conf) s4 = (.ok (), s5) ∧
      New B w = ((some hdl, none),
        ⟨s5, w2.log ++ [.read hdl.conn Emc2301ProductIdReg (.ok 0x37),
          .read hdl.conn Emc2301ConfigReg (.ok conf),
          .wrote hdl.conn Emc2301ConfigReg (clearRange conf) (.ok ())]⟩) := by
  rcases hfind : FindEmc2301Address B w with ⟨⟨b, oerr⟩, w1⟩
  cases oerr with
  | some err =>
    rw [New_find_err B w b err w1 hfind] at hok
    cases hok
  | none =>
    rcases hopen : smbusOpen B b Emc2301ProductIdReg w1 with ⟨ro, w2⟩
    cases ro with
    | err e =>
      rw [New_open_err B w b w1 e w2 hfind hopen] at hok
      cases hok
    | ok c =>
      rcases New_after_open_cases B w b w1 c w2 hfind hopen with
        ⟨e, s3, _, hn⟩ | ⟨v, s3, _, _, hn⟩ | ⟨s3, e, s4, _, _, hn⟩ |
        ⟨s3, conf, s4, e, s5, _, _, _, hn⟩ | ⟨s3, conf, s4, s5, hid, hconf, hwr, hn⟩
      · rw [hn] at hok; cases hok
      · rw [hn] at hok; cases hok
      · rw [hn] at hok; cases hok
      · rw [hn] at hok; cases hok
      · rw [hn] at hok
        have hc : (⟨c⟩ : EMC2301) = hdl := Option.some.inj hok
        subst hc
        exact ⟨b, w1, w2, s3, conf, s4, s5, rfl, hopen, hid, hconf, hwr, hn⟩

/-! ### `New`: the close counter of the real connection -/

/-- The close counter adds up over a log in two parts. -/
theorem closeCount_append (c : Conn) (a b : List Event) :
    closeCount c (a ++ b) = closeCount c a + closeCount c b := by
  unfold closeCount
  rw [List.count_append]

/-- The scan and the open of the real connection `c` do not close `c`: its close
counter right after the open is the one of the log `New` started with. -/
theorem closeCount_at_open (B : SMBus σ) (w : World σ) (b : Int) (w1 : World σ) (c : Conn)
    (w2 : World σ)
    (hfind : FindEmc2301Address B w = ((b, none), w1))
    (hopen : smbusOpen B b Emc2301ProductIdReg w1 = (.ok c, w2)) :
    closeCount c w2.log = closeCount c w.log := by
  obtain ⟨es, hes, ht⟩ := FindEmc2301Address_trace B w
  rw [hfind] at hes
  obtain ⟨hc, hw2⟩ := smbusOpen_ok B b _ w1 c w2 hopen
  have hid : w.log.length + es.length ≤ c.id := by
    rw [hc]
    show w.log.length + es.length ≤ w1.log.length
    rw [hes, List.length_append]
  have hfresh := (ht.fresh c hid).2
  have hes2 : w1.log = w.log ++ es := hes
  rw [hw2, hes2, closeCount_append, closeCount_append, hfresh]
  simp [closeCount, List.count_cons]

/-- After the open of the real connection `c`, `New` either fails, with no handle
and with `c` closed exactly once since, or returns the handle on `c`, not closed. -/
theorem New_close_cases (B : SMBus σ) (w : World σ) (b : Int) (w1 : World σ) (c : Conn)
    (w2 : World σ)
    (hfind : FindEmc2301Address B w = ((b, none), w1))
    (hopen : smbusOpen B b Emc2301ProductIdReg w1 = (.ok c, w2)) :
    (New B w).2.log = w2.log ++ (New B w).2.log.drop w2.log.length ∧
    (((New B w).1.1 = none ∧ (∃ err, (New B w).1.2 = some err) ∧
        closeCount c ((New B w).2.log.drop w2.log.length) = 1) ∨
     ((New B w).1 = (some ⟨c⟩, none) ∧
        closeCount c ((New B w).2.log.drop w2.log.length) = 0)) := by
  rcases New_after_open_cases B w b w1 c w2 hfind hopen with
    ⟨e, s3, _, hn⟩ | ⟨v, s3, _, _, hn⟩ | ⟨s3, e, s4, _, _, hn⟩ |
    ⟨s3, conf, s4, e, s5, _, _, _, hn⟩ | ⟨s3, conf, s4, s5, _, _, _, hn⟩
  · rw [hn]
    simp [closeCount, List.count_cons]
  · rw [hn]
    simp [closeCount, List.count_cons]
  · rw [hn]
    simp [closeCount, List.count_cons]
  · rw [hn]
    simp [closeCount, List.count_cons]
  · rw [hn]
    simp [closeCount, List.count_cons]

/-- C11: once `New` has opened its real connection `c`, the calls it makes afterwards
are such that: whenever it fails it returns no handle, returns an error, and has
closed `c` exactly once; this holds when the identity read fails, when the identity
byte differs from 0x37 (error "unexpected product id"), when the configuration read
fails and when the configuration write fails; in particular when the identity is
0x37 and the configuration write fails with code `e`, `New` fails with that register
error and the close counter of `c` is 1.  When `New` succeeds the handle is on `c`,
which has not been closed.  The scan and the open do not close `c`, so the counter
over the whole log is the counter of the starting log plus this one. -/
theorem New_closes_connection (B : SMBus σ) (w : World σ) (b : Int) (w1 : World σ)
    (c : Conn) (w2 : World σ)
    (hfind : FindEmc2301Address B w = ((b, none), w1))
    (hopen : smbusOpen B b Emc2301ProductIdReg w1 = (.ok c, w2)) :
    (New B w).2.log = w2.log ++ (New B w).2.log.drop w2.log.length ∧
    ((New B w).1.1 = none →
      (∃ err, (New B w).1.2 = some err) ∧
      closeCount c ((New B w).2.log.drop w2.log.length) = 1) ∧
    (∀ hdl, (New B w).1.1 = some hdl →
      hdl.conn = c ∧ (New B w).1.2 = none ∧
      closeCount c ((New B w).2.log.drop w2.log.length) = 0) ∧
    (∀ e s3, B.ReadReg c Emc2301ProductIdReg w2.st = (.err e, s3) →
      (New B w).1 = (none, some (.smbus e))) ∧
    (∀ v s3, B.ReadReg c Emc2301ProductIdReg w2.st = (.ok v, s3) → v.val ≠ 0x37 →
      (New B w).1 = (none, some .unexpectedProductId)) ∧
    (∀ s3 e s4, B.ReadReg c Emc2301ProductIdReg w2.st = (.ok 0x37, s3) →
      B.ReadReg c Emc2301ConfigReg s3 = (.err e, s4) →
      (New B w).1 = (none, some (.smbus e))) ∧
    (∀ s3 conf s4 e s5, B.ReadReg c Emc2301ProductIdReg w2.st = (.ok 0x37, s3) →
      B.ReadReg c Emc2301ConfigReg s3 = (.ok conf, s4) →
      B.WriteReg c Emc2301ConfigReg (clearRange conf) s4 = (.err e, s5) →
      (New B w).1 = (none, some (.smbus e)) ∧
      closeCount c ((New B w).2.log.drop w2.log.length) = 1) ∧
    closeCount c (New B w).2.log =
      closeCount c w.log + closeCount c ((New B w).2.log.drop w2.log.length) := by
  obtain ⟨hlog, hcases⟩ := New_close_cases B w b w1 c w2 hfind hopen
  have hfail : (New B w).1.1 = none →
      (∃ err, (New B w).1.2 = some err) ∧
      closeCount c ((New B w).2.log.drop w2.log.length) = 1 := by
    intro hnone
    rcases hcases with ⟨_, herr, hcount⟩ | ⟨hsome, _⟩
    · exact ⟨herr, hcount⟩
    · rw [hsome] at hnone
      cases hnone
  refine ⟨hlog, hfail, ?_, ?_, ?_, ?_, ?_, ?_⟩
  · intro hdl hsome
    rcases hcases with ⟨hnone, _, _⟩ | ⟨hok, hcount⟩
    · rw [hnone] at hsome
      cases hsome
    · rw [hok] at hsome ⊢
      have hc : (⟨c⟩ : EMC2301) = hdl := Option.some.inj hsome
      rw [← hc]
      exact ⟨rfl, rfl, hcount⟩
  · intro e s3 hid
    rw [New_id_err B w b w1 c w2 e s3 hfind hopen hid]
  · intro v s3 hid hv
    rw [New_id_mismatch B w b w1 c w2 v s3 hfind hopen hid hv]
  · intro s3 e s4 hid hconf
    rw [New_conf_err B w b w1 c w2 0x37 s3 e s4 hfind hopen hid rfl hconf]
  · intro s3 conf s4 e s5 hid hconf hwr
    have hn := New_write_err B w b w1 c w2 0x37 s3 conf s4 e s5 hfind hopen hid rfl hconf hwr
    have h1 : (New B w).1 = (none, some (.smbus e)) := by rw [hn]
    exact ⟨h1, (hfail (by rw [h1])).2⟩
  · conv_lhs => rw [hlog]
    rw [closeCount_append, closeCount_at_open B w b w1 c w2 hfind hopen]

/-- C11, on `writeFailBus`, where the identity is 0x37 and the configuration write
fails with code 6: `New` fails with that error and the real connection, the one with
serial number 3, has been closed once in the whole log. -/
theorem New_closes_connection_witness :
    (New writeFailBus world0).1 = (none, some (.smbus 6)) ∧
    closeCount ⟨3, 0, Emc2301ProductIdReg⟩ (New writeFailBus world0).2.log = 1 := by
  have h := New_closes_connection writeFailBus world0 0
    ⟨(), [.opened ⟨0, 0, 0x00⟩, .read ⟨0, 0, 0x00⟩ Emc2301ProductIdReg (.ok 0x37),
          .closed ⟨0, 0, 0x00⟩]⟩
    ⟨3, 0, Emc2301ProductIdReg⟩
    ⟨(), [.opened ⟨0, 0, 0x00⟩, .read ⟨0, 0, 0x00⟩ Emc2301ProductIdReg (.ok 0x37),
          .closed ⟨0, 0, 0x00⟩, .opened ⟨3, 0, Emc2301ProductIdReg⟩]⟩
    rfl rfl
  obtain ⟨_, _, _, _, _, _, hwrite, hall⟩ := h
  obtain ⟨h1, h2⟩ := hwrite () 0x37 () 6 () rfl rfl rfl
  refine ⟨h1, ?_⟩
  rw [hall, h2]
  rfl

/-! ### `New`: identity and configuration -/

/-- The byte `New` writes back is the configuration byte with the bits 5 and 6
cleared: `conf AND 0x9F`. -/
theorem clearRange_val (conf : Byte) : (clearRange conf).val = conf.val &&& 0x9F := rfl

/-- The bits of the byte `New` writes back: 5 and 6 are 0, the others are those of
the configuration byte. -/
theorem clearRange_bits (conf : Byte) :
    (clearRange conf).val.testBit 5 = false ∧ (clearRange conf).val.testBit 6 = false ∧
    ∀ i, i ≠ 5 → i ≠ 6 → (clearRange conf).val.testBit i = conf.val.testBit i := by
  rw [clearRange_val]
  refine ⟨?_, ?_, ?_⟩
  · rw [Nat.testBit_and]
    have h5 : Nat.testBit 0x9F 5 = false := by decide
    rw [h5, Bool.and_false]
  · rw [Nat.testBit_and]
    have h6 : Nat.testBit 0x9F 6 = false := by decide
    rw [h6, Bool.and_false]
  · intro i h5 h6
    rw [Nat.testBit_and]
    by_cases hi : i < 8
    · have hm : Nat.testBit 0x9F i = true := by
        interval_cases i <;> first | decide | exact absurd rfl h5 | exact absurd rfl h6
      rw [hm, Bool.and_true]
    · have hlt : conf.val < 2 ^ i :=
        lt_of_lt_of_le conf.isLt (Nat.pow_le_pow_right (show 0 < 2 by decide) (by omega : 8 ≤ i))
      rw [Nat.testBit_lt_two_pow hlt, Bool.false_and]

/-- The log of a successful `New`: a trace of probes, then on the connection of the
handle the open, the identity read answering 0x37, the read of the configuration and
the successful write of the configuration with its range bits cleared. -/
theorem New_ok_log (B : SMBus σ) (w : World σ) (hdl : EMC2301)
    (hok : (New B w).1.1 = some hdl) :
    (New B w).1.2 = none ∧
    ∃ es0 conf, ProbeTrace w.log.length es0 ∧
      hdl.conn.id = w.log.length + es0.length ∧
      (New B w).2.log = w.log ++ (es0 ++
        [.opened hdl.conn, .read hdl.conn Emc2301ProductIdReg (.ok 0x37),
         .read hdl.conn Emc2301ConfigReg (.ok conf),
         .wrote hdl.conn Emc2301ConfigReg (clearRange conf) (.ok ())]) := by
  obtain ⟨b, w1, w2, s3, conf, s4, s5, hfind, hopen, _, _, _, hn⟩ := New_ok_inv B w hdl hok
  obtain ⟨es, hes, ht⟩ := FindEmc2301Address_trace B w
  rw [hfind] at hes
  have hes2 : w1.log = w.log ++ es := hes
  obtain ⟨hc, hw2⟩ := smbusOpen_ok B b _ w1 hdl.conn w2 hopen
  have hcid : hdl.conn.id = w.log.length + es.length := by
    rw [hc]
    show w1.log.length = _
    rw [hes2, List.length_append]
  rw [hn]
  refine ⟨rfl, es, conf, ht, hcid, ?_⟩
  show w2.log ++ _ = _
  rw [hw2, hes2]
  simp only [List.append_assoc, List.singleton_append]

/-- C12: when `New` succeeds, the calls it made on the bus are a scan without any
register write, followed on the connection of the handle by the open, the identity
read, the read of the configuration register 0x32 answering `conf`, and one write, to
register 0x32, of the byte `conf AND 0x9F`; this is the only register write of the
whole call.  The bits 5 and 6 of the written byte are 0 and its other bits are those
of `conf`. -/
theorem New_writes_configuration (B : SMBus σ) (w : World σ) (hdl : EMC2301)
    (hok : (New B w).1.1 = some hdl) :
    ∃ es0 conf,
      (New B w).2.log = w.log ++ (es0 ++
        [.opened hdl.conn, .read hdl.conn 0xFD (.ok 0x37),
         .read hdl.conn 0x32 (.ok conf),
         .wrote hdl.conn 0x32 (clearRange conf) (.ok ())]) ∧
      (∀ e ∈ es0, e.isWrote = false) ∧
      ((New B w).2.log.drop w.log.length).filter Event.isWrote =
        [.wrote hdl.conn 0x32 (clearRange conf) (.ok ())] ∧
      (clearRange conf).val = conf.val &&& 0x9F ∧
      (clearRange conf).val.testBit 5 = false ∧ (clearRange conf).val.testBit 6 = false ∧
      (∀ i, i ≠ 5 → i ≠ 6 → (clearRange conf).val.testBit i = conf.val.testBit i) := by
  obtain ⟨_, es0, conf, ht, _, hlog⟩ := New_ok_log B w hdl hok
  have hnw : ∀ e ∈ es0, e.isWrote = false := fun e he => (ht.regs e he).1
  have hfil : es0.filter Event.isWrote = [] := by
    apply List.filter_eq_nil_iff.mpr
    intro e he
    rw [hnw e he]
    decide
  refine ⟨es0, conf, hlog, hnw, ?_, clearRange_val conf, (clearRange_bits conf).1,
    (clearRange_bits conf).2.1, (clearRange_bits conf).2.2⟩
  rw [hlog, List.drop_left, List.filter_append, hfil]
  rfl

/-- C12, on `goodBus`, whose configuration register reads 0xFF: the only write of
`New` is the byte 0x9F to register 0x32. -/
theorem New_writes_configuration_witness :
    (New goodBus world0).1.1 = some ⟨⟨4, 1, 0xFD⟩⟩ ∧
    ∃ es0 conf,
      (New goodBus world0).2.log = [] ++ (es0 ++
        [.opened ⟨4, 1, 0xFD⟩, .read ⟨4, 1, 0xFD⟩ 0xFD (.ok 0x37),
         .read ⟨4, 1, 0xFD⟩ 0x32 (.ok conf),
         .wrote ⟨4, 1, 0xFD⟩ 0x32 (clearRange conf) (.ok ())]) ∧
      clearRange 0xFF = 0x9F := by
  refine ⟨rfl, ?_⟩
  obtain ⟨es0, conf, hlog, _⟩ :=
    New_writes_configuration goodBus world0 ⟨⟨4, 1, 0xFD⟩⟩ rfl
  exact ⟨es0, conf, hlog, by decide⟩

/-- C13: `New` returns a handle only when, on the connection of the handle, the read
of the identity register 0xFD answered exactly 0x37 and the write of the
configuration register 0x32 succeeded (and then it returns no error).  When the
identity read on the real connection succeeds with any other byte, `New` fails with
"unexpected product id", and none of its calls reads or writes the configuration
register: it makes no register write at all. -/
theorem New_verifies_identity (B : SMBus σ) (w : World σ) :
    (∀ hdl, (New B w).1.1 = some hdl →
      (New B w).1.2 = none ∧
      ∃ es, (New B w).2.log = w.log ++ es ∧
        .read hdl.conn 0xFD (.ok 0x37) ∈ es ∧
        (∀ r, .read hdl.conn 0xFD r ∈ es → r = .ok 0x37) ∧
        ∃ d, .wrote hdl.conn 0x32 d (.ok ()) ∈ es) ∧
    (∀ b w1 c w2 v s3,
      FindEmc2301Address B w = ((b, none), w1) →
      smbusOpen B b 0xFD w1 = (.ok c, w2) →
      B.ReadReg c 0xFD w2.st = (.ok v, s3) → v.val ≠ 0x37 →
      (New B w).1 = (none, some .unexpectedProductId) ∧
      ∃ es, (New B w).2.log = w.log ++ es ∧
        ∀ e ∈ es, e.isWrote = false ∧ e.reg ≠ some 0x32) := by
  constructor
  · intro hdl hok
    obtain ⟨herr, es0, conf, ht, hcid, hlog⟩ := New_ok_log B w hdl hok
    refine ⟨herr, _, hlog, ?_, ?_, ⟨clearRange conf, ?_⟩⟩
    · simp [Emc2301ProductIdReg]
    · intro r hr
      rcases List.mem_append.mp hr with h | h
      · have hid := ht.conn_id _ h hdl.conn rfl
        omega
      · simp only [List.mem_cons, List.mem_singleton, List.not_mem_nil, or_false] at h
        rcases h with h | h | h | h
        · cases h
        · exact (Event.read.inj h).2.2
        · have hreg := (Event.read.inj h).2.1
          simp [Emc2301ConfigReg] at hreg
        · cases h
    · simp [Emc2301ConfigReg]
  · intro b w1 c w2 v s3 hfind hopen hid hv
    have hn := New_id_mismatch B w b w1 c w2 v s3 hfind hopen hid hv
    obtain ⟨es, hes, ht⟩ := FindEmc2301Address_trace B w
    rw [hfind] at hes
    have hes2 : w1.log = w.log ++ es := hes
    obtain ⟨_, hw2⟩ := smbusOpen_ok B b _ w1 c w2 hopen
    rw [hn]
    refine ⟨rfl, es ++ [.opened c, .read c Emc2301ProductIdReg (.ok v), .closed c], ?_, ?_⟩
    · show w2.log ++ _ = _
      rw [hw2, hes2]
      simp only [List.append_assoc, List.singleton_append]
    · intro e he
      rcases List.mem_append.mp he with h | h
      · obtain ⟨h1, h2⟩ := ht.regs e h
        refine ⟨h1, fun h32 => ?_⟩
        have := h2 _ h32
        simp [Emc2301ProductIdReg] at this
      · simp only [List.mem_cons, List.mem_singleton, List.not_mem_nil, or_false] at h
        rcases h with h | h | h <;> subst h <;>
          simp [Event.isWrote, Event.reg, Emc2301ProductIdReg]

/-- C13, on `wrongIdBus`, whose identity register reads 0x00 on the real connection:
`New` fails with "unexpected product id" without any register write. -/
theorem New_verifies_identity_witness :
    (New wrongIdBus world0).1 = (none, some .unexpectedProductId) ∧
    ∃ es, (New wrongIdBus world0).2.log = [] ++ es ∧
      ∀ e ∈ es, e.isWrote = false ∧ e.reg ≠ some 0x32 :=
  (New_verifies_identity wrongIdBus world0).2 0
    ⟨(), [.opened ⟨0, 0, 0x00⟩, .read ⟨0, 0, 0x00⟩ 0xFD (.ok 0x00), .closed ⟨0, 0, 0x00⟩]⟩
    ⟨3, 0, 0xFD⟩
    ⟨(), [.opened ⟨0, 0, 0x00⟩, .read ⟨0, 0, 0x00⟩ 0xFD (.ok 0x00), .closed ⟨0, 0, 0x00⟩,
          .opened ⟨3, 0, 0xFD⟩]⟩
    0x00 () rfl rfl rfl (by decide)

/-! ### `FindEmc2301Address`: the first bus that answers -/

/-- Before bus `n` is probed, every call made is about a bus below `n`, none is a
register write, and every read is of the identity register 0xFD. -/
theorem worldBefore_events (B : SMBus σ) (w : World σ) (n : Nat) :
    ∃ es, (worldBefore B w n).log = w.log ++ es ∧
      ∀ e ∈ es, (0 ≤ e.bus ∧ e.bus < (n : Int)) ∧ e.isWrote = false ∧
        ∀ reg, e.reg = some reg → reg = 0xFD := by
  obtain ⟨es, hes, hb⟩ := worldBefore_log B w n
  obtain ⟨es2, hes2, ht⟩ := worldBefore_trace B w n
  have heq : es = es2 := List.append_cancel_left (hes.symm.trans hes2)
  subst heq
  exact ⟨es, hes, fun e he => ⟨hb e he, (ht.regs e he).1, fun reg hr => (ht.regs e he).2 reg hr⟩⟩

/-- A probe that reads a byte is a probe that is answered. -/
theorem ProbeReads.answers {B : SMBus σ} {bus : Nat} {w : World σ} {v : Byte}
    (h : ProbeReads B bus w v) : Answers B bus w :=
  ⟨h.1, v, h.2⟩

/-- A probe that fails is not answered. -/
theorem ProbeFails.not_answers {B : SMBus σ} {bus : Nat} {w : World σ}
    (h : ProbeFails B bus w) : ¬ Answers B bus w := by
  rintro ⟨ho, v, hv⟩
  rcases h with ⟨e, he⟩ | ⟨_, e, he⟩
  · rw [ho] at he
    cases he
  · rw [hv] at he
    cases he

/-- A bus that fails in every state fails when it is probed. -/
theorem Fails.probeFails {B : SMBus σ} {i : Nat} (h : Fails B (i : Int)) (w : World σ) :
    ProbeFails B i w := by
  rcases h with hof | hrf
  · exact Or.inl (hof 0x00 w.st)
  · rcases ho : (B.Open (i : Int) 0x00 w.st).1 with u | e
    · exact Or.inr ⟨ho, hrf ⟨w.log.length, (i : Int), 0x00⟩ rfl _⟩
    · exact Or.inl ⟨e, ho⟩

/-- The calls of a probe that is answered: the open at address 0x00, the read of
register 0xFD with its byte, and the close. -/
theorem probe_log_answers (B : SMBus σ) (bus : Nat) (w : World σ) (ha : Answers B bus w) :
    ∃ v, (probe B bus w).2.log = w.log ++
      [.opened ⟨w.log.length, (bus : Int), 0x00⟩,
       .read ⟨w.log.length, (bus : Int), 0x00⟩ 0xFD (.ok v),
       .closed ⟨w.log.length, (bus : Int), 0x00⟩] := by
  obtain ⟨ho, v, hv⟩ := ha
  unfold probe smbusOpen connReadReg connClose
  rcases hopen : B.Open (bus : Int) 0x00 w.st with ⟨ro, s1⟩
  rw [hopen] at ho hv
  cases ro with
  | err e => cases ho
  | ok u =>
    rcases hr : B.ReadReg ⟨w.log.length, (bus : Int), 0x00⟩ 0xFD s1 with ⟨rr, s2⟩
    rw [hr] at hv
    cases rr with
    | err e => cases hv
    | ok v2 =>
      have hvv : v2 = v := Res.ok.inj hv
      subst hvv
      exact ⟨v2, by simp [hr]⟩

/-- The scan returns the first bus number in 0..10 that answers. -/
theorem FindEmc2301Address_first (B : SMBus σ) (w : World σ) (k : Nat) (hk : k ≤ 10)
    (ha : Answers B k (worldBefore B w k))
    (hlow : ∀ j : Nat, j < k → ¬ Answers B j (worldBefore B w j)) :
    FindEmc2301Address B w = (((k : Int), none), worldBefore B w (k + 1)) := by
  rcases FindEmc2301Address_cases B w with ⟨b0, _, ha0, hmin0, hf⟩ | ⟨hall, _⟩
  · have hbk : b0 = k := by
      rcases Nat.lt_trichotomy b0 k with hlt | heq | hgt
      · exact absurd ha0 (hlow b0 hlt)
      · exact heq
      · exact absurd ha (hmin0 k hgt)
    rw [hf, hbk]
  · exact absurd ha (hall k hk)

/-- C8 as amended: in a run of `FindEmc2301Address` in which the probe of bus number 3
opens and reads 0x37 from the identity register 0xFD, and the probe of each of the
numbers 0, 1, 2 fails (its open fails or its identity read fails),
`FindEmc2301Address` returns 3, whatever the numbers above 3 do.  When instead the
probe of a number `i` below 3 succeeds with a byte other than 0x37, and the probes
of the numbers below `i` fail, `FindEmc2301Address` returns `i`, not 3: it does not
compare the byte.  Each probe is taken in the world the earlier probes have left. -/
theorem FindEmc2301Address_returns_3 (B : SMBus σ) (w : World σ) :
    (ProbeReads B 3 (worldBefore B w 3) 0x37 →
      (∀ i : Nat, i < 3 → ProbeFails B i (worldBefore B w i)) →
      (FindEmc2301Address B w).1 = (3, none)) ∧
    (∀ (i : Nat) (v : Byte), i < 3 → v.val ≠ 0x37 →
      ProbeReads B i (worldBefore B w i) v →
      (∀ j : Nat, j < i → ProbeFails B j (worldBefore B w j)) →
      (FindEmc2301Address B w).1 = ((i : Int), none) ∧
      (FindEmc2301Address B w).1 ≠ (3, none)) := by
  constructor
  · intro h3 hlow
    rw [FindEmc2301Address_first B w 3 (by decide) h3.answers
      (fun j hj => (hlow j hj).not_answers)]
    rfl
  · intro i v hi _ hr hlow
    rw [FindEmc2301Address_first B w i (by omega) hr.answers
      (fun j hj => (hlow j hj).not_answers)]
    refine ⟨rfl, fun heq => ?_⟩
    have h3 : (i : Int) = 3 := (Prod.mk.inj heq).1
    omega

/-- C8 as amended, on `flakyBus`, where number 0 fails only because it is probed
first: the scan returns 3; and on `mismatchBus`, where the probe of number 0 reads
0x00: the scan returns 0. -/
theorem FindEmc2301Address_returns_3_witness :
    (FindEmc2301Address flakyBus ⟨0, []⟩).1 = (3, none) ∧
    (FindEmc2301Address mismatchBus world0).1 = (0, none) :=
  ⟨(FindEmc2301Address_returns_3 flakyBus ⟨0, []⟩).1 ⟨rfl, rfl⟩
      (fun i hi => by
        have hcases : i = 0 ∨ i = 1 ∨ i = 2 := by omega
        rcases hcases with h | h | h
        · subst h; exact Or.inl ⟨1, rfl⟩
        · subst h; exact Or.inl ⟨2, rfl⟩
        · subst h; exact Or.inl ⟨2, rfl⟩),
   ((FindEmc2301Address_returns_3 mismatchBus world0).2 0 0x00 (by decide) (by decide)
      ⟨rfl, rfl⟩ (fun j hj => absurd hj (by omega))).1⟩

/-- C9: `FindEmc2301Address` returns the bus number `b` in 0..10 exactly when `b` is
the least number whose open (at address 0x00) succeeds and whose one-byte read of the
identity register 0xFD succeeds, each bus being probed in the world the earlier
probes have left; it has then probed the buses 0..`b` only: its last three calls are
the open of bus `b` at address 0x00, the read of register 0xFD and the close, and
every call it made is about a bus number in 0..`b`, none is a register write and
every read is of register 0xFD.  It returns -1 with "device not found" exactly when no number in 0..10 has
both a successful open and a successful read of 0xFD; and it always ends in one of
these two ways. -/
theorem FindEmc2301Address_least (B : SMBus σ) (w : World σ) :
    (∀ b : Nat, b ≤ 10 →
      ((FindEmc2301Address B w).1 = ((b : Int), none) ↔
        Answers B b (worldBefore B w b) ∧
          ∀ i : Nat, i < b → ¬ Answers B i (worldBefore B w i))) ∧
    (∀ b : Nat, b ≤ 10 → (FindEmc2301Address B w).1 = ((b : Int), none) →
      (FindEmc2301Address B w).2 = worldBefore B w (b + 1) ∧
      (∃ es0 v, (FindEmc2301Address B w).2.log = w.log ++ (es0 ++
        [.opened ⟨(w.log ++ es0).length, (b : Int), 0x00⟩,
         .read ⟨(w.log ++ es0).length, (b : Int), 0x00⟩ 0xFD (.ok v),
         .closed ⟨(w.log ++ es0).length, (b : Int), 0x00⟩])) ∧
      ∃ es, (FindEmc2301Address B w).2.log = w.log ++ es ∧
        ∀ e ∈ es, (0 ≤ e.bus ∧ e.bus ≤ (b : Int)) ∧ e.isWrote = false ∧
          ∀ reg, e.reg = some reg → reg = 0xFD) ∧
    ((FindEmc2301Address B w).1 = (-1, some .deviceNotFound) ↔
      ∀ i : Nat, i ≤ 10 → ¬ Answers B i (worldBefore B w i)) ∧
    ((∃ b : Nat, b ≤ 10 ∧ (FindEmc2301Address B w).1 = ((b : Int), none)) ∨
      (FindEmc2301Address B w).1 = (-1, some .deviceNotFound)) := by
  rcases FindEmc2301Address_cases B w with ⟨b0, hb0, ha0, hmin0, hf⟩ | ⟨hall, hf⟩
  · refine ⟨?_, ?_, ?_, Or.inl ⟨b0, hb0, by rw [hf]⟩⟩
    · intro b _
      rw [hf]
      constructor
      · intro heq
        have hbb : b0 = b := by
          have := (Prod.mk.inj heq).1
          exact_mod_cast this
        subst hbb
        exact ⟨ha0, hmin0⟩
      · rintro ⟨ha, hmin⟩
        have hbb : b0 = b := by
          rcases Nat.lt_trichotomy b0 b with hlt | heq | hgt
          · exact absurd ha0 (hmin b0 hlt)
          · exact heq
          · exact absurd ha (hmin0 b hgt)
        rw [hbb]
    · intro b _ heq
      rw [hf] at heq ⊢
      have hbb : b0 = b := by
        have := (Prod.mk.inj heq).1
        exact_mod_cast this
      subst hbb
      refine ⟨rfl, ?_, ?_⟩
      · obtain ⟨es0, hes0, _⟩ := worldBefore_events B w b0
        obtain ⟨v, hv⟩ := probe_log_answers B b0 (worldBefore B w b0) ha0
        refine ⟨es0, v, ?_⟩
        show (probe B b0 (worldBefore B w b0)).2.log = _
        rw [hv, hes0, List.append_assoc]
      · obtain ⟨es, hes, hb⟩ := worldBefore_events B w (b0 + 1)
        refine ⟨es, hes, fun e he => ?_⟩
        obtain ⟨h1, h2, h3⟩ := hb e he
        exact ⟨⟨h1.1, by have := h1.2; omega⟩, h2, h3⟩
    · rw [hf]
      constructor
      · intro heq
        have := (Prod.mk.inj heq).1
        omega
      · intro hall
        exact absurd ha0 (hall b0 hb0)
  · refine ⟨?_, ?_, ?_, Or.inr (by rw [hf])⟩
    · intro b hb
      rw [hf]
      constructor
      · intro heq
        have := (Prod.mk.inj heq).1
        omega
      · rintro ⟨ha, _⟩
        exact absurd ha (hall b hb)
    · intro b hb heq
      rw [hf] at heq
      have := (Prod.mk.inj heq).1
      omega
    · rw [hf]
      exact ⟨fun _ => hall, fun _ => rfl⟩

/-! ### `New` on a bus without the identity 0x37 -/

/-- A successful `Open` of the bus is a successful `smbus.Open`, on the connection
numbered by the length of the log. -/
theorem smbusOpen_of_ok (B : SMBus σ) (bus : Int) (addr : Nat) (w : World σ) (s : σ)
    (h : B.Open bus addr w.st = (.ok (), s)) :
    smbusOpen B bus addr w =
      (.ok ⟨w.log.length, bus, addr⟩, ⟨s, w.log ++ [.opened ⟨w.log.length, bus, addr⟩]⟩) := by
  unfold smbusOpen
  rw [h]

/-- A failed `Open` of the bus is a failed `smbus.Open`, with the same code. -/
theorem smbusOpen_of_err (B : SMBus σ) (bus : Int) (addr : Nat) (w : World σ) (e : Nat)
    (s : σ) (h : B.Open bus addr w.st = (.err e, s)) :
    smbusOpen B bus addr w = (.err e, ⟨s, w.log ++ [.openFailed bus addr e]⟩) := by
  unfold smbusOpen
  rw [h]

/-- After a scan that found bus `b`, what `New` returns is decided by the open of the
real connection (bus `b`, address 0xFD) and by the read of the identity register
0xFD on it: the error of the open, the error of the read, or "unexpected product id"
when the read answers a byte other than 0x37. -/
theorem New_real_connection (B : SMBus σ) (w : World σ) (b : Int) (w1 : World σ)
    (hfind : FindEmc2301Address B w = ((b, none), w1)) :
    (∀ e s2, B.Open b 0xFD w1.st = (.err e, s2) →
      (New B w).1 = (none, some (.smbus e))) ∧
    (∀ s2 e s3, B.Open b 0xFD w1.st = (.ok (), s2) →
      B.ReadReg ⟨w1.log.length, b, 0xFD⟩ 0xFD s2 = (.err e, s3) →
      (New B w).1 = (none, some (.smbus e))) ∧
    (∀ s2 v s3, B.Open b 0xFD w1.st = (.ok (), s2) →
      B.ReadReg ⟨w1.log.length, b, 0xFD⟩ 0xFD s2 = (.ok v, s3) → v.val ≠ 0x37 →
      (New B w).1 = (none, some .unexpectedProductId)) := by
  refine ⟨?_, ?_, ?_⟩
  · intro e s2 ho
    rw [New_open_err B w b w1 e _ hfind (smbusOpen_of_err B b 0xFD w1 e s2 ho)]
  · intro s2 e s3 ho hr
    rw [New_id_err B w b w1 _ _ e s3 hfind (smbusOpen_of_ok B b 0xFD w1 s2 ho) hr]
  · intro s2 v s3 ho hr hv
    rw [New_id_mismatch B w b w1 _ _ v s3 hfind (smbusOpen_of_ok B b 0xFD w1 s2 ho) hr hv]

/-- C10 as amended: when no bus number in 0..10 ever returns the identity 0x37 from
register 0xFD, `New` returns no handle and an error.  The error is "device not found"
exactly when `FindEmc2301Address` fails, that is when no number in 0..10 answers the
probe (open and read of 0xFD both succeeding).  When the scan finds bus `b`, the
error is the one of the open of the real connection (bus `b`, address 0xFD) when
that open fails, the one of the read of register 0xFD on the real connection when
that read fails, and "unexpected product id" when that read answers its byte. -/
theorem New_without_identity (B : SMBus σ) (w : World σ)
    (h : ∀ i : Nat, i ≤ 10 → NeverReads B (i : Int) 0x37) :
    (New B w).1.1 = none ∧
    ((New B w).1.2 = some .deviceNotFound ↔
      (FindEmc2301Address B w).1 = (-1, some .deviceNotFound)) ∧
    ((New B w).1.2 = some .deviceNotFound ↔
      ∀ i : Nat, i ≤ 10 → ¬ Answers B i (worldBefore B w i)) ∧
    ((∃ i : Nat, i ≤ 10 ∧ Answers B i (worldBefore B w i)) →
      (New B w).1.2 = some .unexpectedProductId ∨ ∃ e, (New B w).1.2 = some (.smbus e)) ∧
    (∀ b w1, FindEmc2301Address B w = ((b, none), w1) →
      (∀ e s2, B.Open b 0xFD w1.st = (.err e, s2) →
        (New B w).1 = (none, some (.smbus e))) ∧
      (∀ s2 e s3, B.Open b 0xFD w1.st = (.ok (), s2) →
        B.ReadReg ⟨w1.log.length, b, 0xFD⟩ 0xFD s2 = (.err e, s3) →
        (New B w).1 = (none, some (.smbus e))) ∧
      (∀ s2 v s3, B.Open b 0xFD w1.st = (.ok (), s2) →
        B.ReadReg ⟨w1.log.length, b, 0xFD⟩ 0xFD s2 = (.ok v, s3) →
        (New B w).1 = (none, some .unexpectedProductId))) := by
  have hpaths : ∀ b w1, FindEmc2301Address B w = ((b, none), w1) →
      (∀ e s2, B.Open b 0xFD w1.st = (.err e, s2) →
        (New B w).1 = (none, some (.smbus e))) ∧
      (∀ s2 e s3, B.Open b 0xFD w1.st = (.ok (), s2) →
        B.ReadReg ⟨w1.log.length, b, 0xFD⟩ 0xFD s2 = (.err e, s3) →
        (New B w).1 = (none, some (.smbus e))) ∧
      (∀ s2 v s3, B.Open b 0xFD w1.st = (.ok (), s2) →
        B.ReadReg ⟨w1.log.length, b, 0xFD⟩ 0xFD s2 = (.ok v, s3) →
        (New B w).1 = (none, some .unexpectedProductId)) := by
    intro b w1 hfind
    obtain ⟨p1, p2, p3⟩ := New_real_connection B w b w1 hfind
    refine ⟨p1, p2, fun s2 v s3 ho hr => p3 s2 v s3 ho hr ?_⟩
    -- the scan returns a number in 0..10, which never reads 0x37
    rcases FindEmc2301Address_cases B w with ⟨b0, hb0, _, _, hf⟩ | ⟨_, hf⟩
    · rw [hf] at hfind
      have hb : (b0 : Int) = b := (Prod.mk.inj (Prod.mk.inj hfind).1).1
      have hnr := h b0 hb0 ⟨w1.log.length, b, 0xFD⟩ hb.symm s2
      rw [hr] at hnr
      intro hv
      exact hnr (congrArg Res.ok (Fin.ext hv))
    · rw [hf] at hfind
      have := (Prod.mk.inj (Prod.mk.inj hfind).1).2
      cases this
  rcases FindEmc2301Address_cases B w with ⟨b0, hb0, ha0, _, hfind⟩ | ⟨hall, hfind⟩
  · obtain ⟨p1, p2, p3⟩ := hpaths b0 _ hfind
    have hnew : (New B w).1.1 = none ∧
        ((New B w).1.2 = some .unexpectedProductId ∨
          ∃ e, (New B w).1.2 = some (.smbus e)) := by
      rcases ho : B.Open (b0 : Int) 0xFD (worldBefore B w (b0 + 1)).st with ⟨ro, s2⟩
      cases ro with
      | err e =>
        rw [p1 e s2 ho]
        exact ⟨rfl, Or.inr ⟨e, rfl⟩⟩
      | ok u =>
        rcases hr : B.ReadReg ⟨(worldBefore B w (b0 + 1)).log.length, (b0 : Int), 0xFD⟩ 0xFD s2
          with ⟨rr, s3⟩
        cases rr with
        | err e =>
          rw [p2 s2 e s3 ho hr]
          exact ⟨rfl, Or.inr ⟨e, rfl⟩⟩
        | ok v =>
          rw [p3 s2 v s3 ho hr]
          exact ⟨rfl, Or.inl rfl⟩
    have hnd : (New B w).1.2 ≠ some .deviceNotFound := by
      rcases hnew.2 with hu | ⟨e, he⟩
      · rw [hu]; decide
      · rw [he]; simp
    refine ⟨hnew.1, ?_, ?_, fun _ => hnew.2, hpaths⟩
    · constructor
      · intro hd
        exact absurd hd hnd
      · intro hd
        rw [hfind] at hd
        have := (Prod.mk.inj hd).1
        omega
    · constructor
      · intro hd
        exact absurd hd hnd
      · intro hall
        exact absurd ha0 (hall b0 hb0)
  · have hnew : (New B w).1 = (none, some .deviceNotFound) := by
      rw [New_find_err B w (-1) .deviceNotFound _ hfind]
    refine ⟨by rw [hnew], ?_, ?_, ?_, hpaths⟩
    · rw [hnew, hfind]
      simp
    · rw [hnew]
      exact ⟨fun _ => hall, fun _ => rfl⟩
    · rintro ⟨i, hi, ha⟩
      exact absurd ha (hall i hi)

/-- C10 as amended, on a bus where no number opens: "device not found"; on
`probeOnlyBus`, where the scan finds bus 0 and the open of the real connection fails
with code 9: that error; on `readFailBus`, where the read of the identity on the
real connection fails with code 5: that error. -/
theorem New_without_identity_witness :
    (New deadBus world0).1 = (none, some .deviceNotFound) ∧
    (New probeOnlyBus world0).1 = (none, some (.smbus 9)) ∧
    (New readFailBus world0).1 = (none, some (.smbus 5)) :=
  ⟨Prod.ext
      (New_without_identity deadBus world0
        (fun _ _ _ _ _ => by simp [deadBus, staticBus])).1
      ((New_without_identity deadBus world0
        (fun _ _ _ _ _ => by simp [deadBus, staticBus])).2.2.1.mpr
        (fun _ _ ha => by cases ha.1)),
   ((New_without_identity probeOnlyBus world0
      (fun _ _ _ _ _ => by simp [probeOnlyBus])).2.2.2.2 0
      ⟨(), [.opened ⟨0, 0, 0x00⟩, .read ⟨0, 0, 0x00⟩ 0xFD (.ok 0x00),
            .closed ⟨0, 0, 0x00⟩]⟩ rfl).1 9 () rfl,
   ((New_without_identity readFailBus world0
      (fun _ _ c _ _ => by
        by_cases hc : c.addr = 0x00 <;> simp [readFailBus, hc])).2.2.2.2 0
      ⟨(), [.opened ⟨0, 0, 0x00⟩, .read ⟨0, 0, 0x00⟩ 0xFD (.ok 0x00),
            .closed ⟨0, 0, 0x00⟩]⟩ rfl).2.1 () 5 () rfl rfl⟩

end Cm4iofan
